import Mathlib

/-!
Verification of the weekly aggregation engine, derived-metric calculator and
cross-platform campaign matcher of the b2b-paid-tracker repository.

The Python sources `src/meta_ads_to_sheets.py`, `src/google_ads_to_sheets.py`
and `src/hubspot_to_sheets.py` are embedded shallowly below:
- dates are proleptic-Gregorian ordinals (`ℤ`), exactly `date.toordinal()`;
- Python `float` metric values are modelled as exact rationals (`ℚ`),
  Python `int` as `ℤ`;
- the insertion-ordered `dict` accumulator is an association list;
- code paths on which `datetime.strptime` raises are `Except.error`.

Definitions come first, all theorems follow.
-/

namespace B2B

/-! ### Characters and strings

Python compares strings lexicographically by code point.  The built-in
`String` order of Lean does not reduce in the kernel, so the comparison is
restated over `List Char`. -/

/-- Lexicographic strict order on character lists by code point, the order
Python uses for `str` comparison. -/
def listLt : List Char → List Char → Bool
  | _, [] => false
  | [], _ :: _ => true
  | a :: as, b :: bs => a < b || (a = b && listLt as bs)

/-- Python `s < t` on strings. -/
def strLt (s t : String) : Bool := listLt s.toList t.toList

/-- Test that `p` is a prefix of `s`, character by character (Python
`s.startswith(p)` reads `strStartsWith s p`). -/
def listIsPrefixOf : List Char → List Char → Bool
  | [], _ => true
  | _ :: _, [] => false
  | a :: as, b :: bs => a = b && listIsPrefixOf as bs

/-- Python `s.startswith(p)`. -/
def strStartsWith (s p : String) : Bool := listIsPrefixOf p.toList s.toList

/-! ### Calendar dates

`datetime` represents a date by its proleptic Gregorian ordinal
(`date.toordinal()`, with `0001-01-01` being ordinal `1`); `timedelta`
addition is ordinal addition and `date.weekday()` is `Monday = 0`. -/

/-- Gregorian leap-year rule, as `calendar.isleap`. -/
def isLeap (y : ℕ) : Bool := (y % 4 == 0 && y % 100 != 0) || y % 400 == 0

/-- Number of days of month `m` (1-12) of year `y`. -/
def daysInMonth (y m : ℕ) : ℕ :=
  if m = 2 then (if isLeap y then 29 else 28)
  else if m = 4 ∨ m = 6 ∨ m = 9 ∨ m = 11 then 30
  else 31

/-- Days in year `y` before the first day of month `m`. -/
def daysBeforeMonth (y m : ℕ) : ℕ :=
  ((List.range m).drop 1).foldl (fun acc k => acc + daysInMonth y k) 0

/-- Proleptic Gregorian ordinal of the date `y-m-d`, as `date.toordinal()`. -/
def toOrdinal (y m d : ℕ) : ℤ :=
  365 * ((y : ℤ) - 1) + ((y : ℤ) - 1) / 4 - ((y : ℤ) - 1) / 100 + ((y : ℤ) - 1) / 400
    + (daysBeforeMonth y m : ℤ) + (d : ℤ)

/-- Numeric value of a decimal digit character. -/
def digitVal (c : Char) : Option ℕ :=
  if c.isDigit then some (c.toNat - 48) else none

/-- Model of `datetime.strptime(s, "%Y-%m-%d").toordinal()` on the canonical
zero-padded `YYYY-MM-DD` form produced by `strftime`; a string `strptime`
rejects (and on which Python raises `ValueError`) yields `none`. -/
def parseDate (s : String) : Option ℤ :=
  match s.toList with
  | [y1, y2, y3, y4, h1, m1, m2, h2, d1, d2] =>
    if h1 = '-' ∧ h2 = '-' then
      match digitVal y1, digitVal y2, digitVal y3, digitVal y4,
            digitVal m1, digitVal m2, digitVal d1, digitVal d2 with
      | some a, some b, some c, some d, some e, some f, some g, some h =>
        let y := 1000 * a + 100 * b + 10 * c + d
        let m := 10 * e + f
        let dd := 10 * g + h
        if 1 ≤ y ∧ 1 ≤ m ∧ m ≤ 12 ∧ 1 ≤ dd ∧ dd ≤ daysInMonth y m then
          some (toOrdinal y m dd)
        else none
      | _, _, _, _, _, _, _, _ => none
    else none
  | _ => none

/-- Model of `date.weekday()` on an ordinal: Monday is `0`, Sunday is `6`
(ordinal `1`, 0001-01-01, was a Monday). -/
def weekday (n : ℤ) : ℤ := (n - 1) % 7

/-- Function `get_week_start` of `src/meta_ads_to_sheets.py` (and the
identical copy in `src/google_ads_to_sheets.py`): the Monday of the week
containing the date, `date - timedelta(days=date.weekday())`, on ordinals. -/
def get_week_start (n : ℤ) : ℤ := n - weekday n

/-- Value `week_end` computed in `aggregate_ads_daily_to_weekly` /
`aggregate_daily_to_weekly`: `week_start + timedelta(days=6)`. -/
def week_end_of (n : ℤ) : ℤ := get_week_start n + 6

/-! ### Campaign matching -/

/-- Function `is_prefix_match` of `src/meta_ads_to_sheets.py` (lines 35-39):
true when either string is a prefix of the other, false when either is
empty. -/
def is_prefix_match (str1 str2 : String) : Bool :=
  if str1 = "" ∨ str2 = "" then false
  else strStartsWith str1 str2 || strStartsWith str2 str1

/-- Function `find_matching_hubspot_campaign` of `src/meta_ads_to_sheets.py`
(lines 42-49): among catalog entries standing in the prefix relation with the
query, Python's `max(matches, key=len)` — the first candidate of maximal
length; the empty string when the query is falsy or nothing matches. -/
def find_matching_hubspot_campaign (campaign_name : String) (hubspot_campaigns : List String) : String :=
  if campaign_name = "" then ""
  else
    match hubspot_campaigns.filter (fun hs => is_prefix_match campaign_name hs) with
    | [] => ""
    | m :: ms => ms.foldl (fun best c => if best.length < c.length then c else best) m

/-- Common-prefix length of two character lists: Python's loop in
`get_common_prefix_length` returns the index of the first mismatch, or the
shorter length when no mismatch occurs. -/
def commonLen : List Char → List Char → ℕ
  | a :: as, b :: bs => if a = b then commonLen as bs + 1 else 0
  | _, _ => 0

/-- Function `get_common_prefix_length` of `src/hubspot_to_sheets.py`
(lines 92-100): 0 when either string is falsy. -/
def get_common_prefix_length (str1 str2 : String) : ℕ :=
  if str1 = "" ∨ str2 = "" then 0 else commonLen str1.toList str2.toList

/-- Function `find_best_match` of `src/hubspot_to_sheets.py` (lines 103-120):
linear scan keeping the first candidate of strictly greatest common-prefix
length, returned only when that length reaches `min_prefix_length`; an empty
query, the sentinel `"(No value)"`, or an unresolved template marker
(leading `"\x7b\x7b"`) short-circuits to no match.  `fbmFold` is the loop of
lines 111-115 over an explicit `(best_prefix_len, best_match)` pair. -/
def fbmFold (utm_campaign : String) (campaigns : List String) (acc : ℕ × String) : ℕ × String :=
  campaigns.foldl
    (fun acc c =>
      if acc.1 < get_common_prefix_length utm_campaign c
      then (get_common_prefix_length utm_campaign c, c) else acc)
    acc

def find_best_match (utm_campaign : String) (campaigns : List String)
    (min_prefix_length : ℕ := 10) : String :=
  if utm_campaign = "" ∨ utm_campaign = "(No value)" ∨ strStartsWith utm_campaign "\x7b\x7b" then ""
  else
    let best := fbmFold utm_campaign campaigns (0, "")
    if min_prefix_length ≤ best.1 then best.2 else ""

/-- Function `find_matching_meta_campaign` of `src/hubspot_to_sheets.py`
(lines 123-125). -/
def find_matching_meta_campaign (utm_campaign : String) (meta_campaigns : List String) : String :=
  find_best_match utm_campaign meta_campaigns

/-- Function `find_matching_google_campaign` of `src/hubspot_to_sheets.py`
(lines 141-143). -/
def find_matching_google_campaign (utm_campaign : String) (google_campaigns : List String) : String :=
  find_best_match utm_campaign google_campaigns

/-- Combination step of `process_deals` in `src/hubspot_to_sheets.py`
(lines 295-298): with both matches non-empty keep the longer (ties to the
Meta side, `len(matched_meta) >= len(matched_google)`), otherwise Python's
`matched_meta or matched_google`. -/
def combineMatches (matched_meta matched_google : String) : String :=
  if matched_meta ≠ "" ∧ matched_google ≠ "" then
    if matched_google.length ≤ matched_meta.length then matched_meta else matched_google
  else if matched_meta ≠ "" then matched_meta else matched_google

/-- Matched-campaign selection inside `process_deals` of
`src/hubspot_to_sheets.py` (lines 291-298): fuzzy-match the UTM campaign
against each catalog independently, then combine. -/
def process_deals_matched_campaign (utm_campaign : String)
    (meta_campaigns google_campaigns : List String) : String :=
  combineMatches (find_matching_meta_campaign utm_campaign meta_campaigns)
    (find_matching_google_campaign utm_campaign google_campaigns)

/-! ### Meta Ads weekly aggregation (`src/meta_ads_to_sheets.py`) -/

/-- One daily ad-level insight record as consumed by
`aggregate_ads_daily_to_weekly`: a flat mapping with optional list-valued
action fields (an absent key behaves as the empty list, an absent string
key as `""`, absent numerics as `0`). -/
structure MetricRecord where
  date_start : String := ""
  campaign_name : String := ""
  ad_id : String := ""
  ad_name : String := ""
  impressions : ℤ := 0
  reach : ℤ := 0
  spend : ℚ := 0
  actions : List (String × ℚ) := []
  outbound_clicks : List ℚ := []
  video_p25_watched_actions : List ℚ := []
  video_p50_watched_actions : List ℚ := []
  video_p75_watched_actions : List ℚ := []
deriving DecidableEq

/-- The weekly accumulator created by the `defaultdict` factory of
`aggregate_ads_daily_to_weekly` (lines 167-183).  `week_start`/`week_end`
are ordinals here (`0` standing for the factory's `""`, overwritten before
any bucket is observable). -/
@[ext] structure WeeklyBucket where
  campaign_name : String := ""
  ad_id : String := ""
  ad_name : String := ""
  impressions : ℤ := 0
  reach : ℤ := 0
  spend : ℚ := 0
  leads : ℚ := 0
  landing_page_views : ℚ := 0
  engagement : ℚ := 0
  outbound_clicks : ℚ := 0
  video_p25 : ℚ := 0
  video_p50 : ℚ := 0
  video_p75 : ℚ := 0
  week_start : ℤ := 0
  week_end : ℤ := 0
deriving DecidableEq

/-- The bucket the `defaultdict` factory creates. -/
def emptyBucket : WeeklyBucket := {}

/-- Lookup in an insertion-ordered association list (a Python `dict`). -/
def lookupA {κ β : Type} [DecidableEq κ] : List (κ × β) → κ → Option β
  | [], _ => none
  | (k, v) :: rest, k' => if k = k' then some v else lookupA rest k'

/-- Mutating update of a Python `defaultdict`: apply `f` to the entry at `k`
(created from the default `d` when absent, appended in insertion order). -/
def updateA {κ β : Type} [DecidableEq κ] (d : β) : List (κ × β) → κ → (β → β) → List (κ × β)
  | [], k, f => [(k, f d)]
  | (k', v) :: rest, k, f =>
    if k' = k then (k', f v) :: rest else (k', v) :: updateA d rest k f

/-- One iteration of the `actions` loop of `aggregate_ads_daily_to_weekly`
(lines 206-214): named accumulators for `lead`, `landing_page_view` and
`post_engagement`; any other action type is ignored. -/
def stepAct (b : WeeklyBucket) (a : String × ℚ) : WeeklyBucket :=
  if a.1 = "lead" then { b with leads := b.leads + a.2 }
  else if a.1 = "landing_page_view" then
    { b with landing_page_views := b.landing_page_views + a.2 }
  else if a.1 = "post_engagement" then { b with engagement := b.engagement + a.2 }
  else b

/-- The `actions` loop of `aggregate_ads_daily_to_weekly` (lines 205-214). -/
def applyActions (acts : List (String × ℚ)) (b : WeeklyBucket) : WeeklyBucket :=
  acts.foldl stepAct b

/-- The per-record bucket mutation of `aggregate_ads_daily_to_weekly`
(lines 195-230): descriptive fields are overwritten, numeric fields are
summed, the list-valued click/video fields contribute their element sums. -/
def addRecord (b : WeeklyBucket) (item : MetricRecord) (ws we : ℤ) : WeeklyBucket :=
  let b1 := { b with
    campaign_name := item.campaign_name
    ad_id := item.ad_id
    ad_name := item.ad_name
    impressions := b.impressions + item.impressions
    reach := b.reach + item.reach
    spend := b.spend + item.spend
    week_start := ws
    week_end := we }
  let b2 := applyActions item.actions b1
  { b2 with
    outbound_clicks := b2.outbound_clicks + item.outbound_clicks.sum
    video_p25 := b2.video_p25 + item.video_p25_watched_actions.sum
    video_p50 := b2.video_p50 + item.video_p50_watched_actions.sum
    video_p75 := b2.video_p75 + item.video_p75_watched_actions.sum }

/-- The `(ad_id, week_start)` grouping key a record lands in: `none` for a
record with a missing date (skipped by line 187-188). -/
def recordKey (r : MetricRecord) : Option (String × ℤ) :=
  if r.date_start = "" then none
  else (parseDate r.date_start).map (fun n => (r.ad_id, get_week_start n))

/-- The `weekly_data` dictionary: keys `(ad_id, week_start)` in insertion
order. -/
abbrev AdTable := List ((String × ℤ) × WeeklyBucket)

/-- The record loop of `aggregate_ads_daily_to_weekly` (lines 185-230) over
an explicit accumulator.  A record with an empty `date_start` is skipped; a
record whose non-empty `date_start` does not parse makes `strptime` raise,
modelled as `Except.error`. -/
def aggAds : List MetricRecord → AdTable → Except Unit AdTable
  | [], acc => .ok acc
  | r :: rest, acc =>
    if r.date_start = "" then aggAds rest acc
    else
      match parseDate r.date_start with
      | none => .error ()
      | some n =>
        aggAds rest (updateA emptyBucket acc (r.ad_id, get_week_start n)
          (fun b => addRecord b r (get_week_start n) (get_week_start n + 6)))

/-- Function `aggregate_ads_daily_to_weekly` of `src/meta_ads_to_sheets.py`
(lines 162-232): `list(weekly_data.values())` in key insertion order. -/
def aggregate_ads_daily_to_weekly (daily_data : List MetricRecord) : Except Unit (List WeeklyBucket) :=
  (aggAds daily_data []).map (fun m => m.map Prod.snd)

/-- Total contribution of a record's `actions` list to the accumulator named
by `label`. -/
def actionSum (label : String) (acts : List (String × ℚ)) : ℚ :=
  ((acts.filter (fun a => a.1 = label)).map Prod.snd).sum

/-- One step of the per-key specification fold: what `addRecord` does to the
(possibly absent) bucket of key `k`. -/
def stepKey (k : String × ℤ) (cur : Option WeeklyBucket) (r : MetricRecord) : WeeklyBucket :=
  addRecord (cur.getD emptyBucket) r k.2 (k.2 + 6)

/-- Specification fold: the bucket of key `k` after consuming `recs`,
starting from `init`. -/
def bucketFor (recs : List MetricRecord) (k : String × ℤ)
    (init : Option WeeklyBucket) : Option WeeklyBucket :=
  recs.foldl (fun cur r => if recordKey r = some k then some (stepKey k cur r) else cur) init

/-! ### Rendering: rounding, truncation, date formatting, cells -/

/-- Model of Python `round(x, ndigits)` (round-half-to-even) on exact
rationals. -/
def pyRound (ndigits : ℕ) (x : ℚ) : ℚ :=
  let m : ℚ := (10 : ℚ) ^ ndigits
  let y := x * m
  let f : ℤ := ⌊y⌋
  let frac := y - (f : ℚ)
  let r : ℤ :=
    if frac < 1 / 2 then f
    else if 1 / 2 < frac then f + 1
    else if Even f then f else f + 1
  (r : ℚ) / m

/-- Model of Python `int(x)` on a float: truncation toward zero. -/
def ratInt (q : ℚ) : ℤ := if 0 ≤ q then ⌊q⌋ else ⌈q⌉

/-- One spreadsheet cell: a string (the empty string renders an empty cell),
an integer, or a rounded rational number. -/
inductive Cell where
  | str (s : String)
  | int (n : ℤ)
  | num (q : ℚ)
deriving DecidableEq

/-- Inverse of `toOrdinal`: the `(year, month, day)` of a proleptic Gregorian
ordinal (standard civil-from-days computation; all divisors positive, so
`Int` division agrees with Python floor division). -/
def civilFromDays (n : ℤ) : ℤ × ℤ × ℤ :=
  let z := n + 305
  let era := z / 146097
  let doe := z % 146097
  let yoe := (doe - doe / 1460 + doe / 36524 - doe / 146096) / 365
  let doy := doe - (365 * yoe + yoe / 4 - yoe / 100)
  let mp := (5 * doy + 2) / 153
  let d := doy - (153 * mp + 2) / 5 + 1
  let m := if mp < 10 then mp + 3 else mp - 9
  (if m ≤ 2 then yoe + era * 400 + 1 else yoe + era * 400, m, d)

/-- Zero-padding of a (non-negative) integer to `width` digits, as
`strftime` pads `%Y`/`%m`/`%d`. -/
def padInt (width : ℕ) (n : ℤ) : String :=
  let s := toString n
  if s.length < width then String.mk (List.replicate (width - s.length) '0') ++ s else s

/-- Model of `date.fromordinal(n).strftime("%Y-%m-%d")`. -/
def formatDate (n : ℤ) : String :=
  padInt 4 (civilFromDays n).1 ++ "-" ++ padInt 2 (civilFromDays n).2.1
    ++ "-" ++ padInt 2 (civilFromDays n).2.2

/-- The `Week` label `f"{week_start} - {week_end}"`. -/
def weekLabel (ws we : ℤ) : String := formatDate ws ++ " - " ++ formatDate we

/-! ### Meta row building and sorting (`process_weekly_ad_data`) -/

/-- The row built for one weekly bucket by `process_weekly_ad_data` of
`src/meta_ads_to_sheets.py` (lines 268-337): 26 cells A-Z. -/
def metaRow (item : WeeklyBucket) (hubspot_campaigns : List String) : List Cell :=
  let impressions := item.impressions
  let reach := item.reach
  let spend := item.spend
  let leads := item.leads
  let landing_page_views := item.landing_page_views
  let engagement := item.engagement
  let outbound_clicks := item.outbound_clicks
  let video_p25 := item.video_p25
  let video_p50 := item.video_p50
  let video_p75 := item.video_p75
  let frequency : ℚ := if 0 < reach then (impressions : ℚ) / (reach : ℚ) else 0
  let cpm : ℚ := if 0 < impressions then spend / (impressions : ℚ) * 1000 else 0
  let er : ℚ := if 0 < impressions then engagement / (impressions : ℚ) else 0
  let hook_rate : ℚ := if 0 < impressions then video_p25 / (impressions : ℚ) else 0
  let hold_rate : ℚ := if 0 < video_p25 then video_p50 / video_p25 else 0
  let traffic_loss_rate : ℚ := if 0 < video_p25 then 1 - video_p75 / video_p25 else 0
  let cr : ℚ := if 0 < landing_page_views then leads / landing_page_views else 0
  let cost_per_lead : ℚ := if 0 < leads then spend / leads else 0
  let outbound_ctr : ℚ := if 0 < impressions then outbound_clicks / (impressions : ℚ) else 0
  let cost_per_outbound_click : ℚ := if 0 < outbound_clicks then spend / outbound_clicks else 0
  let result_type := if 0 < leads then "Lead" else ""
  let results := leads
  let cost_per_result := cost_per_lead
  let preview_link :=
    if item.ad_id ≠ "" then "https://www.facebook.com/ads/manager/preview/" ++ item.ad_id
    else ""
  let matched_campaign := find_matching_hubspot_campaign item.campaign_name hubspot_campaigns
  [Cell.str item.campaign_name,
    Cell.str (weekLabel item.week_start item.week_end),
    Cell.str item.ad_name,
    Cell.int impressions,
    Cell.int reach,
    Cell.num (pyRound 2 frequency),
    Cell.num (pyRound 2 spend),
    Cell.str result_type,
    if 0 < results then Cell.int (ratInt results) else Cell.str "",
    if 0 < cost_per_result then Cell.num (pyRound 2 cost_per_result) else Cell.str "",
    Cell.num (pyRound 4 cr),
    Cell.num (pyRound 2 cpm),
    if 0 < outbound_clicks then Cell.int (ratInt outbound_clicks) else Cell.str "",
    if 0 < outbound_ctr then Cell.num (pyRound 4 outbound_ctr) else Cell.str "",
    if 0 < cost_per_outbound_click then Cell.num (pyRound 2 cost_per_outbound_click)
      else Cell.str "",
    Cell.num (pyRound 4 er),
    Cell.num (pyRound 4 hook_rate),
    if 0 < video_p25 then Cell.num (pyRound 4 hold_rate) else Cell.str "",
    if 0 < video_p25 then Cell.num (pyRound 4 traffic_loss_rate) else Cell.str "",
    if 0 < landing_page_views then Cell.int (ratInt landing_page_views) else Cell.str "",
    if 0 < leads then Cell.int (ratInt leads) else Cell.str "",
    if 0 < cost_per_lead then Cell.num (pyRound 2 cost_per_lead) else Cell.str "",
    Cell.str preview_link,
    Cell.str (formatDate item.week_start),
    Cell.str (formatDate item.week_end),
    Cell.str matched_campaign]

/-- Python `x or ""` on a sort-key cell: the sorted columns hold strings. -/
def cellKey : Cell → String
  | .str s => s
  | _ => ""

/-- Lexicographic `≤` on a triple of strings, Python's tuple comparison. -/
def key3Le (a b : String × String × String) : Bool :=
  strLt a.1 b.1 ||
    (a.1 = b.1 &&
      (strLt a.2.1 b.2.1 ||
        (a.2.1 = b.2.1 && (strLt a.2.2 b.2.2 || a.2.2 = b.2.2))))

/-- Sort key of `rows.sort(key=lambda x: (x[0] or "", x[2] or "", x[1] or ""))`
in `process_weekly_ad_data` (line 340): campaign, ad name, week label. -/
def metaSortKey (row : List Cell) : String × String × String :=
  (cellKey (row.getD 0 (Cell.str "")), cellKey (row.getD 2 (Cell.str "")),
    cellKey (row.getD 1 (Cell.str "")))

def metaRowLe (a b : List Cell) : Bool := key3Le (metaSortKey a) (metaSortKey b)

/-- Function `process_weekly_ad_data` of `src/meta_ads_to_sheets.py`
(lines 235-342), data rows only (the constant header list is omitted):
buckets with zero impressions are skipped, each remaining bucket becomes a
26-cell row, and the rows are stably sorted by (campaign, ad name, week). -/
def process_weekly_ad_data (weekly_data : List WeeklyBucket)
    (hubspot_campaigns : List String) : List (List Cell) :=
  ((weekly_data.filter (fun b => b.impressions ≠ 0)).map
      (fun b => metaRow b hubspot_campaigns)).mergeSort metaRowLe

/-! ### Google Ads weekly aggregation (`src/google_ads_to_sheets.py`) -/

/-- One daily campaign record as consumed by `aggregate_daily_to_weekly`
(the fetched-but-unaggregated `ctr`/`average_cpc`/`average_cpm` fields are
not read by the aggregation and are omitted).  A share value of `None`
models an absent metric. -/
structure GoogleRecord where
  date : String := ""
  campaign_name : String := ""
  currency_code : String := "EUR"
  cost_micros : ℤ := 0
  impressions : ℤ := 0
  clicks : ℤ := 0
  search_impression_share : Option ℚ := none
  search_click_share : Option ℚ := none
deriving DecidableEq

/-- The weekly accumulator of `aggregate_daily_to_weekly` (lines 157-169);
ordinals stand for the week strings as in `WeeklyBucket`. -/
@[ext] structure GoogleBucket where
  campaign_name : String := ""
  currency_code : String := "EUR"
  cost_micros : ℤ := 0
  impressions : ℤ := 0
  clicks : ℤ := 0
  search_impression_share_sum : ℚ := 0
  search_impression_share_count : ℤ := 0
  search_click_share_sum : ℚ := 0
  search_click_share_count : ℤ := 0
  week_start : ℤ := 0
  week_end : ℤ := 0
deriving DecidableEq

/-- The bucket the `defaultdict` factory of `aggregate_daily_to_weekly`
creates. -/
def emptyGoogleBucket : GoogleBucket := {}

/-- The per-record bucket mutation of `aggregate_daily_to_weekly`
(lines 181-199): descriptive fields overwritten, cost/impressions/clicks
summed, and a share observation folded into sum and count only when present
and strictly positive. -/
def addGoogleRecord (b : GoogleBucket) (item : GoogleRecord) (ws we : ℤ) : GoogleBucket :=
  let b1 := { b with
    campaign_name := item.campaign_name
    currency_code := item.currency_code
    cost_micros := b.cost_micros + item.cost_micros
    impressions := b.impressions + item.impressions
    clicks := b.clicks + item.clicks
    week_start := ws
    week_end := we }
  let b2 :=
    match item.search_impression_share with
    | some sis =>
      if 0 < sis then
        { b1 with
          search_impression_share_sum := b1.search_impression_share_sum + sis
          search_impression_share_count := b1.search_impression_share_count + 1 }
      else b1
    | none => b1
  match item.search_click_share with
  | some scs =>
    if 0 < scs then
      { b2 with
        search_click_share_sum := b2.search_click_share_sum + scs
        search_click_share_count := b2.search_click_share_count + 1 }
    else b2
  | none => b2

/-- The `(campaign_name, week_start)` grouping key of a Google record. -/
def googleKey (r : GoogleRecord) : Option (String × ℤ) :=
  if r.date = "" then none
  else (parseDate r.date).map (fun n => (r.campaign_name, get_week_start n))

/-- The `weekly_data` dictionary of the Google script. -/
abbrev GTable := List ((String × ℤ) × GoogleBucket)

/-- The record loop of `aggregate_daily_to_weekly` (lines 171-199). -/
def aggGoogle : List GoogleRecord → GTable → Except Unit GTable
  | [], acc => .ok acc
  | r :: rest, acc =>
    if r.date = "" then aggGoogle rest acc
    else
      match parseDate r.date with
      | none => .error ()
      | some n =>
        aggGoogle rest (updateA emptyGoogleBucket acc (r.campaign_name, get_week_start n)
          (fun b => addGoogleRecord b r (get_week_start n) (get_week_start n + 6)))

/-- Function `aggregate_daily_to_weekly` of `src/google_ads_to_sheets.py`
(lines 155-201): `list(weekly_data.values())` in key insertion order. -/
def aggregate_daily_to_weekly (daily_data : List GoogleRecord) : Except Unit (List GoogleBucket) :=
  (aggGoogle daily_data []).map (fun m => m.map Prod.snd)

/-- Contribution of one (optional) share observation to the running sum:
its value when present and strictly positive, else nothing. -/
def shareAdd (o : Option ℚ) : ℚ := ((o.filter fun v => 0 < v).getD 0)

/-- Contribution of one (optional) share observation to the counter. -/
def shareCnt (o : Option ℚ) : ℤ := if (o.filter fun v => 0 < v).isSome then 1 else 0

/-- The valid (present and strictly positive) share observations of a record
list, in order. -/
def posShares (f : GoogleRecord → Option ℚ) (l : List GoogleRecord) : List ℚ :=
  l.filterMap (fun r => (f r).filter fun v => 0 < v)

/-- One step of the per-key specification fold for the Google table. -/
def gStepKey (k : String × ℤ) (cur : Option GoogleBucket) (r : GoogleRecord) : GoogleBucket :=
  addGoogleRecord (cur.getD emptyGoogleBucket) r k.2 (k.2 + 6)

/-- Per-key specification fold for the Google table. -/
def gBucketFor (recs : List GoogleRecord) (k : String × ℤ)
    (init : Option GoogleBucket) : Option GoogleBucket :=
  recs.foldl (fun cur r => if googleKey r = some k then some (gStepKey k cur r) else cur) init

/-! ### Google row building and sorting (`process_weekly_data`) -/

/-- The row built for one weekly bucket by `process_weekly_data` of
`src/google_ads_to_sheets.py` (lines 222-264): 12 cells A-L. -/
def googleRow (item : GoogleBucket) (hubspot_campaigns : List String) : List Cell :=
  let impressions := item.impressions
  let clicks := item.clicks
  let cost : ℚ := (item.cost_micros : ℚ) / 1000000
  let cpm : ℚ := if 0 < impressions then cost / (impressions : ℚ) * 1000 else 0
  let ctr : ℚ := if 0 < impressions then (clicks : ℚ) / (impressions : ℚ) else 0
  let cpc : ℚ := if 0 < clicks then cost / (clicks : ℚ) else 0
  let search_impression_share : ℚ :=
    if 0 < item.search_impression_share_count then
      item.search_impression_share_sum / (item.search_impression_share_count : ℚ)
    else 0
  let search_click_share : ℚ :=
    if 0 < item.search_click_share_count then
      item.search_click_share_sum / (item.search_click_share_count : ℚ)
    else 0
  let matched_campaign := find_matching_hubspot_campaign item.campaign_name hubspot_campaigns
  [Cell.str (weekLabel item.week_start item.week_end),
    Cell.str item.campaign_name,
    Cell.str item.currency_code,
    Cell.num (pyRound 2 cost),
    Cell.int impressions,
    Cell.num (pyRound 2 cpm),
    Cell.int clicks,
    Cell.num (pyRound 4 ctr),
    if 0 < clicks then Cell.num (pyRound 2 cpc) else Cell.str "",
    if 0 < search_impression_share then Cell.num (pyRound 4 search_impression_share)
      else Cell.str "",
    if 0 < search_click_share then Cell.num (pyRound 4 search_click_share) else Cell.str "",
    Cell.str matched_campaign]

/-- Lexicographic `≤` on a pair of strings, Python's tuple comparison. -/
def key2Le (a b : String × String) : Bool :=
  strLt a.1 b.1 || (a.1 = b.1 && (strLt a.2 b.2 || a.2 = b.2))

/-- Sort key of `rows.sort(key=lambda x: (x[0] or "", x[1] or ""))` in
`process_weekly_data` (line 267): week label first, then campaign. -/
def googleSortKey (row : List Cell) : String × String :=
  (cellKey (row.getD 0 (Cell.str "")), cellKey (row.getD 1 (Cell.str "")))

def googleRowLe (a b : List Cell) : Bool := key2Le (googleSortKey a) (googleSortKey b)

/-- Function `process_weekly_data` of `src/google_ads_to_sheets.py`
(lines 204-268), data rows only (constant header omitted): zero-impression
buckets are skipped, each remaining bucket becomes a 12-cell row, and the
rows are stably sorted by (week label, campaign). -/
def process_weekly_data (weekly_data : List GoogleBucket)
    (hubspot_campaigns : List String) : List (List Cell) :=
  ((weekly_data.filter (fun b => b.impressions ≠ 0)).map
      (fun b => googleRow b hubspot_campaigns)).mergeSort googleRowLe

/-! ### Sample records for concrete witnesses -/

/-- Monday 2025-07-07 record of ad `ad1`. -/
def recMonA : MetricRecord :=
  { date_start := "2025-07-07", campaign_name := "CampA", ad_id := "ad1",
    ad_name := "Ad One", impressions := 100, reach := 50, spend := 10,
    actions := [("lead", 2), ("landing_page_view", 5), ("other", 9)],
    outbound_clicks := [3, 4],
    video_p25_watched_actions := [10],
    video_p50_watched_actions := [6],
    video_p75_watched_actions := [2] }

/-- Tuesday 2025-07-08 record of the same ad and week, with a different
descriptive `ad_name`. -/
def recTueA : MetricRecord :=
  { date_start := "2025-07-08", campaign_name := "CampA", ad_id := "ad1",
    ad_name := "Ad One Renamed", impressions := 40, reach := 20, spend := 5,
    actions := [("lead", 1)], outbound_clicks := [1] }

/-- A record whose non-empty date `strptime` cannot parse. -/
def recBadDate : MetricRecord := { date_start := "garbage", ad_id := "ad1" }

/-- The key both sample records of week 2025-07-07 fall in (ordinal 739439 is
Monday 2025-07-07). -/
def sampleKey : String × ℤ := ("ad1", 739439)

/-- The table aggregating the two sample records. -/
def sampleTable : AdTable := (aggAds [recMonA, recTueA] []).toOption.getD []

/-- The bucket of `sampleKey` in `sampleTable`. -/
def sampleBucket : WeeklyBucket := (lookupA sampleTable sampleKey).getD emptyBucket

/-- The table aggregating the two sample records in the swapped order. -/
def sampleTableSwapped : AdTable := (aggAds [recTueA, recMonA] []).toOption.getD []

/-- The bucket of `sampleKey` in `sampleTableSwapped`. -/
def sampleBucketSwapped : WeeklyBucket :=
  (lookupA sampleTableSwapped sampleKey).getD emptyBucket

/-- Monday 2025-07-07 Google campaign record with a valid impression-share
observation and no click-share observation. -/
def gRecMon : GoogleRecord :=
  { date := "2025-07-07", campaign_name := "CampG", currency_code := "EUR",
    cost_micros := 2000000, impressions := 10, clicks := 2,
    search_impression_share := some (1/2), search_click_share := none }

/-- Tuesday 2025-07-08 record of the same campaign: a second valid
impression-share observation and a zero (invalid) click-share. -/
def gRecTue : GoogleRecord :=
  { date := "2025-07-08", campaign_name := "CampG", currency_code := "EUR",
    cost_micros := 1000000, impressions := 5, clicks := 1,
    search_impression_share := some (1/4), search_click_share := some 0 }

/-- The key of the sample Google records. -/
def gKeyW : String × ℤ := ("CampG", 739439)

/-- The table aggregating the two sample Google records. -/
def gTable : GTable := (aggGoogle [gRecMon, gRecTue] []).toOption.getD []

/-- The bucket of `gKeyW` in `gTable`. -/
def gBucketW : GoogleBucket := (lookupA gTable gKeyW).getD emptyGoogleBucket

/-- A weekly bucket with delivery but a zero denominator for every guarded
and unguarded ratio: reach, leads, outbound clicks, video and landing-page
accumulators all zero. -/
def cxBucket : WeeklyBucket :=
  { impressions := 1, reach := 0, week_start := 739439, week_end := 739445 }

/-- A Google weekly bucket with delivery, no clicks and no valid share
observations. -/
def cxGoogleBucket : GoogleBucket :=
  { impressions := 1, week_start := 739439, week_end := 739445 }

/-- Google bucket of campaign `"B"` in the week of 2025-07-07. -/
def gbW1 : GoogleBucket :=
  { campaign_name := "B", impressions := 1, week_start := 739439, week_end := 739445 }

/-- Google bucket of campaign `"A"` in the following week. -/
def gbW2 : GoogleBucket :=
  { campaign_name := "A", impressions := 1, week_start := 739446, week_end := 739452 }

/-! ## Theorems -/

/-! ### String order -/

theorem listLt_trans (a : List Char) :
    ∀ b c : List Char, listLt a b = true → listLt b c = true → listLt a c = true := by
  induction a with
  | nil =>
    intro b c hab hbc
    cases b with
    | nil => simp [listLt] at hab
    | cons b bs =>
      cases c with
      | nil => simp [listLt] at hbc
      | cons c cs => simp [listLt]
  | cons a as ih =>
    intro b c hab hbc
    cases b with
    | nil => simp [listLt] at hab
    | cons b bs =>
      cases c with
      | nil => simp [listLt] at hbc
      | cons c cs =>
        simp only [listLt, Bool.or_eq_true, Bool.and_eq_true, decide_eq_true_eq] at hab hbc ⊢
        rcases hab with h1 | ⟨he1, h1⟩ <;> rcases hbc with h2 | ⟨he2, h2⟩
        · exact Or.inl (lt_trans h1 h2)
        · exact Or.inl (he2 ▸ h1)
        · exact Or.inl (he1 ▸ h2)
        · exact Or.inr ⟨he1.trans he2, ih bs cs h1 h2⟩

theorem listLt_total (a : List Char) :
    ∀ b : List Char, listLt a b = true ∨ a = b ∨ listLt b a = true := by
  induction a with
  | nil =>
    intro b
    cases b with
    | nil => exact Or.inr (Or.inl rfl)
    | cons b bs => exact Or.inl (by simp [listLt])
  | cons a as ih =>
    intro b
    cases b with
    | nil => exact Or.inr (Or.inr (by simp [listLt]))
    | cons b bs =>
      rcases lt_trichotomy a b with h | h | h
      · exact Or.inl (by simp [listLt, h])
      · subst h
        rcases ih bs with h2 | h2 | h2
        · exact Or.inl (by simp [listLt, h2])
        · exact Or.inr (Or.inl (by rw [h2]))
        · exact Or.inr (Or.inr (by simp [listLt, h2]))
      · exact Or.inr (Or.inr (by simp [listLt, h]))

theorem strLt_trans {s t u : String} (h1 : strLt s t = true) (h2 : strLt t u = true) :
    strLt s u = true :=
  listLt_trans s.toList t.toList u.toList h1 h2

theorem strLt_total (s t : String) : strLt s t = true ∨ s = t ∨ strLt t s = true := by
  rcases listLt_total s.toList t.toList with h | h | h
  · exact Or.inl h
  · exact Or.inr (Or.inl (String.ext h))
  · exact Or.inr (Or.inr h)

/-! ### C6: week bucketing -/

/-- Claim C6: for every calendar date `n` (as an ordinal), `week_start` equals
`n` minus `weekday n` days and falls on a Monday (`weekday = 0`), `week_end`
is `week_start + 6` days, and every date in the closed interval
`[week_start, week_end]` has that same `week_start` — a week is determined by
any date it contains. -/
theorem week_bucket_invariants (n : ℤ) :
    get_week_start n = n - weekday n ∧
    weekday (get_week_start n) = 0 ∧
    week_end_of n = get_week_start n + 6 ∧
    (∀ k : ℤ, get_week_start n ≤ k → k ≤ week_end_of n → get_week_start k = get_week_start n) := by
  refine ⟨rfl, ?_, rfl, fun k h1 h2 => ?_⟩ <;>
    simp only [get_week_start, weekday, week_end_of] at * <;> omega

/-- Witness for `week_bucket_invariants`, instantiated at 2025-07-09 (a
Wednesday, ordinal 739441) and 2025-07-13 (the Sunday of the same week). -/
theorem week_bucket_invariants_witness :
    toOrdinal 2025 7 9 = 739441 ∧
    get_week_start 739441 ≤ 739445 ∧ 739445 ≤ week_end_of 739441 ∧
    get_week_start 739445 = get_week_start 739441 := by
  exact ⟨by decide, by decide, by decide,
    (week_bucket_invariants 739441).2.2.2 739445 (by decide) (by decide)⟩

/-! ### C3: prefix-containment matcher -/

theorem listIsPrefixOf_iff (p : List Char) :
    ∀ s : List Char, listIsPrefixOf p s = true ↔ p <+: s := by
  induction p with
  | nil => intro s; simp [listIsPrefixOf, List.nil_prefix]
  | cons a as ih =>
    intro s
    cases s with
    | nil =>
      simp only [listIsPrefixOf, Bool.false_eq_true, false_iff]
      intro h
      exact absurd (List.eq_nil_of_prefix_nil h) (by simp)
    | cons b bs =>
      simp [listIsPrefixOf, List.cons_prefix_cons, ih bs, and_comm]

theorem is_prefix_match_iff (str1 str2 : String) :
    is_prefix_match str1 str2 = true ↔
      str1 ≠ "" ∧ str2 ≠ "" ∧ (str2.toList <+: str1.toList ∨ str1.toList <+: str2.toList) := by
  unfold is_prefix_match strStartsWith
  split
  · simp only [Bool.false_eq_true, false_iff]
    tauto
  · rename_i h
    push_neg at h
    simp [listIsPrefixOf_iff, h.1, h.2]

theorem foldl_max_len (ms : List String) :
    ∀ m : String,
      (ms.foldl (fun best c => if best.length < c.length then c else best) m) ∈ m :: ms ∧
      ∀ c ∈ m :: ms,
        c.length ≤ (ms.foldl (fun best c => if best.length < c.length then c else best) m).length := by
  induction ms with
  | nil => intro m; simp
  | cons c cs ih =>
    intro m
    simp only [List.foldl_cons]
    rcases ih (if m.length < c.length then c else m) with ⟨hmem, hbd⟩
    constructor
    · rcases List.mem_cons.1 hmem with h | h
      · rw [h]
        split <;> simp
      · simp [h]
    · intro x hx
      rcases List.mem_cons.1 hx with h | h
      · subst h
        refine le_trans ?_ (hbd _ (List.mem_cons_self _ _))
        split <;> omega
      · rcases List.mem_cons.1 h with h2 | h2
        · subst h2
          refine le_trans ?_ (hbd _ (List.mem_cons_self _ _))
          split <;> omega
        · exact hbd _ (List.mem_cons_of_mem _ h2)

/-- Claim C3: the prefix-containment matcher returns the empty result on an
empty query or when no catalog entry stands in the prefix relation with the
query; otherwise it returns a matching entry of maximal string length among
the matching entries; and on query `"Summer_Sale"` against
`{"Summer", "Summer_Sale_EU", "Winter"}` it returns `"Summer_Sale_EU"`. -/
theorem find_matching_hubspot_campaign_spec (q : String) (cat : List String) :
    (q = "" → find_matching_hubspot_campaign q cat = "") ∧
    ((∀ c ∈ cat, is_prefix_match q c = false) → find_matching_hubspot_campaign q cat = "") ∧
    (∀ c ∈ cat, is_prefix_match q c = true →
      find_matching_hubspot_campaign q cat ∈ cat ∧
      is_prefix_match q (find_matching_hubspot_campaign q cat) = true ∧
      ∀ c' ∈ cat, is_prefix_match q c' = true →
        c'.length ≤ (find_matching_hubspot_campaign q cat).length) ∧
    find_matching_hubspot_campaign "Summer_Sale" ["Summer", "Summer_Sale_EU", "Winter"]
      = "Summer_Sale_EU" := by
  refine ⟨fun h => by simp [find_matching_hubspot_campaign, h], ?_, ?_, by decide⟩
  · intro hnone
    unfold find_matching_hubspot_campaign
    split
    · rfl
    · have : cat.filter (fun hs => is_prefix_match q hs) = [] :=
        List.filter_eq_nil_iff.2 (fun c hc => by simp [hnone c hc])
      rw [this]
  · intro c hc hmatch
    have hq : q ≠ "" := by
      intro hq
      rw [is_prefix_match_iff] at hmatch
      exact hmatch.1 hq
    have hcf : c ∈ cat.filter (fun hs => is_prefix_match q hs) :=
      List.mem_filter.2 ⟨hc, hmatch⟩
    unfold find_matching_hubspot_campaign
    rw [if_neg hq]
    rcases hfe : cat.filter (fun hs => is_prefix_match q hs) with _ | ⟨m, ms⟩
    · rw [hfe] at hcf; simp at hcf
    · rcases foldl_max_len ms m with ⟨hmem, hbd⟩
      rw [← hfe] at hmem hbd
      refine ⟨(List.mem_filter.1 hmem).1, (List.mem_filter.1 hmem).2, ?_⟩
      intro c' hc' hm'
      exact hbd c' (List.mem_filter.2 ⟨hc', hm'⟩)

/-- Witness for `find_matching_hubspot_campaign_spec`: the maximal-length
clause instantiated at the matching catalog entry `"Summer"`. -/
theorem find_matching_hubspot_campaign_spec_witness :
    find_matching_hubspot_campaign "Summer_Sale" ["Summer", "Summer_Sale_EU", "Winter"] ∈
        (["Summer", "Summer_Sale_EU", "Winter"] : List String) ∧
    is_prefix_match "Summer_Sale"
        (find_matching_hubspot_campaign "Summer_Sale" ["Summer", "Summer_Sale_EU", "Winter"]) = true := by
  have h := (find_matching_hubspot_campaign_spec "Summer_Sale"
      ["Summer", "Summer_Sale_EU", "Winter"]).2.2.1 "Summer" (by decide) (by decide)
  exact ⟨h.1, h.2.1⟩

/-! ### C4: common-prefix fuzzy matcher -/

theorem commonLen_le_left : ∀ a b : List Char, commonLen a b ≤ a.length := by
  intro a
  induction a with
  | nil => intro b; cases b <;> simp [commonLen]
  | cons x xs ih =>
    intro b
    cases b with
    | nil => simp [commonLen]
    | cons y ys =>
      simp only [commonLen, List.length_cons]
      split
      · exact Nat.succ_le_succ (ih ys)
      · omega

theorem get_common_prefix_length_le_left (s t : String) :
    get_common_prefix_length s t ≤ s.length := by
  unfold get_common_prefix_length
  split
  · omega
  · exact commonLen_le_left s.toList t.toList

theorem get_common_prefix_length_empty_right (s : String) :
    get_common_prefix_length s "" = 0 := by
  simp [get_common_prefix_length]

theorem fbmFold_spec (utm : String) (campaigns : List String) :
    ∀ acc : ℕ × String,
      (∀ c ∈ campaigns, get_common_prefix_length utm c ≤ (fbmFold utm campaigns acc).1) ∧
      acc.1 ≤ (fbmFold utm campaigns acc).1 ∧
      (fbmFold utm campaigns acc = acc ∨
        ((fbmFold utm campaigns acc).2 ∈ campaigns ∧
          get_common_prefix_length utm (fbmFold utm campaigns acc).2
            = (fbmFold utm campaigns acc).1)) := by
  induction campaigns with
  | nil => intro acc; exact ⟨by simp, le_refl _, Or.inl rfl⟩
  | cons c cs ih =>
    intro acc
    have hstep : fbmFold utm (c :: cs) acc
        = fbmFold utm cs
            (if acc.1 < get_common_prefix_length utm c
             then (get_common_prefix_length utm c, c) else acc) := rfl
    rcases ih (if acc.1 < get_common_prefix_length utm c
               then (get_common_prefix_length utm c, c) else acc) with ⟨h1, h2, h3⟩
    rw [hstep]
    refine ⟨?_, ?_, ?_⟩
    · intro x hx
      rcases List.mem_cons.1 hx with h | h
      · subst h
        refine le_trans ?_ h2
        split
        · simp
        · omega
      · exact h1 x h
    · refine le_trans ?_ h2
      split
      · simp
        omega
      · simp
    · rcases h3 with h | h
      · rw [h]
        split
        · rename_i hlt
          exact Or.inr ⟨List.mem_cons_self _ _, rfl⟩
        · exact Or.inl rfl
      · exact Or.inr ⟨List.mem_cons_of_mem _ h.1, h.2⟩

theorem find_best_match_below_threshold (utm : String) (campaigns : List String)
    (h : ∀ c ∈ campaigns, get_common_prefix_length utm c < 10) :
    find_best_match utm campaigns = "" := by
  unfold find_best_match
  split
  · rfl
  · simp only []
    rcases (fbmFold_spec utm campaigns (0, "")).2.2 with he | ⟨hmem, heq⟩
    · rw [if_neg]
      rw [he]
      omega
    · rw [if_neg]
      rw [← heq]
      exact Nat.not_le.2 (h _ hmem)

/-- Claim C4: the common-prefix fuzzy matcher immediately yields no match on
an empty query, the sentinel `"(No value)"`, or a query starting with the
template marker; it yields no match when every candidate's common-prefix
length with the query is below the default threshold 10 (in particular
whenever the query itself is shorter than 10 characters); and a non-empty
result is a catalog entry of greatest common-prefix length, that length
being at least 10.  Conversely a catalog entry reaching the threshold forces
a match when no guard fires. -/
theorem find_best_match_spec (utm : String) (campaigns : List String) :
    (utm = "" ∨ utm = "(No value)" ∨ strStartsWith utm "\x7b\x7b" = true →
      find_best_match utm campaigns = "") ∧
    (utm.length < 10 → find_best_match utm campaigns = "") ∧
    ((∀ c ∈ campaigns, get_common_prefix_length utm c < 10) →
      find_best_match utm campaigns = "") ∧
    (∀ r, find_best_match utm campaigns = r → r ≠ "" →
      r ∈ campaigns ∧ 10 ≤ get_common_prefix_length utm r ∧
      ∀ c ∈ campaigns, get_common_prefix_length utm c ≤ get_common_prefix_length utm r) ∧
    ((utm ≠ "" ∧ utm ≠ "(No value)" ∧ strStartsWith utm "\x7b\x7b" = false) →
      ∀ c ∈ campaigns, 10 ≤ get_common_prefix_length utm c →
        find_best_match utm campaigns ≠ "") := by
  refine ⟨?_, ?_, find_best_match_below_threshold utm campaigns, ?_, ?_⟩
  · intro h
    unfold find_best_match
    rw [if_pos h]
  · intro h
    refine find_best_match_below_threshold utm campaigns (fun c _ => ?_)
    exact lt_of_le_of_lt (get_common_prefix_length_le_left utm c) h
  · intro r hr hne
    rcases (fbmFold_spec utm campaigns (0, "")).2.2 with he | ⟨hmem, heq⟩
    · exfalso
      apply hne
      rw [← hr]
      unfold find_best_match
      split
      · rfl
      · simp only []
        rw [he, if_neg (by omega)]
    · unfold find_best_match at hr
      rcases Classical.em
          (utm = "" ∨ utm = "(No value)" ∨ strStartsWith utm "\x7b\x7b" = true) with hg | hg
      · rw [if_pos hg] at hr
        exact absurd hr.symm hne
      · rw [if_neg hg] at hr
        simp only [] at hr
        by_cases hth : 10 ≤ (fbmFold utm campaigns (0, "")).1
        · rw [if_pos hth] at hr
          subst hr
          exact ⟨hmem, heq ▸ hth, fun c hc => heq ▸ (fbmFold_spec utm campaigns (0, "")).1 c hc⟩
        · rw [if_neg hth] at hr
          exact absurd hr.symm hne
  · rintro ⟨h1, h2, h3⟩ c hc hth
    have hg : ¬(utm = "" ∨ utm = "(No value)" ∨ strStartsWith utm "\x7b\x7b" = true) := by
      simp [h1, h2, h3]
    have hbl : 10 ≤ (fbmFold utm campaigns (0, "")).1 :=
      le_trans hth ((fbmFold_spec utm campaigns (0, "")).1 c hc)
    rcases (fbmFold_spec utm campaigns (0, "")).2.2 with he | ⟨hmem, heq⟩
    · rw [he] at hbl
      omega
    · unfold find_best_match
      rw [if_neg hg]
      simp only []
      rw [if_pos hbl]
      intro hemp
      rw [hemp, get_common_prefix_length_empty_right] at heq
      omega

/-- Witness for `find_best_match_spec`: the maximal-match clause at the
concrete query of the spec's test vector, and the short-query clause at
`"short"`. -/
theorem find_best_match_spec_witness :
    (find_best_match "b2b_brand_auction_2025_q1"
        ["b2b_brand_auction_2024_q4", "completely_different"]
      ∈ (["b2b_brand_auction_2024_q4", "completely_different"] : List String)) ∧
    10 ≤ get_common_prefix_length "b2b_brand_auction_2025_q1"
        (find_best_match "b2b_brand_auction_2025_q1"
          ["b2b_brand_auction_2024_q4", "completely_different"]) ∧
    find_best_match "short" ["shorter_than_threshold"] = "" := by
  have h := (find_best_match_spec "b2b_brand_auction_2025_q1"
      ["b2b_brand_auction_2024_q4", "completely_different"]).2.2.2.1
      "b2b_brand_auction_2024_q4" (by decide) (by decide)
  have h2 := (find_best_match_spec "short" ["shorter_than_threshold"]).2.1 (by decide)
  exact ⟨h.1, h.2.1, h2⟩

/-! ### C5: dual-catalog match -/

theorem combineMatches_spec (a b : String) :
    (a ≠ "" → b ≠ "" → b.length < a.length → combineMatches a b = a) ∧
    (a ≠ "" → b ≠ "" → a.length < b.length → combineMatches a b = b) ∧
    (a ≠ "" → b = "" → combineMatches a b = a) ∧
    (a = "" → b ≠ "" → combineMatches a b = b) ∧
    (combineMatches a b = "" ↔ a = "" ∧ b = "") := by
  unfold combineMatches
  by_cases h1 : a = ""
  · by_cases h2 : b = ""
    · subst h1; subst h2
      simp
    · subst h1
      simp [h2]
  · by_cases h2 : b = ""
    · subst h2
      simp [h1]
    · rw [if_pos ⟨h1, h2⟩]
      refine ⟨fun _ _ h3 => if_pos (le_of_lt h3), fun _ _ h3 => if_neg (by omega),
        fun _ hb => absurd hb h2, fun hae => absurd hae h1, ?_⟩
      constructor
      · intro h
        split at h
        · exact absurd h h1
        · exact absurd h h2
      · rintro ⟨hae, _⟩
        exact absurd hae h1

/-- Claim C5: checked against two catalogs, the combined match is the longer
of the two per-catalog fuzzy matches when both exist and differ in length,
the single existing match when exactly one catalog matches, and empty
exactly when both per-catalog matches are empty. -/
theorem process_deals_matched_campaign_spec (utm : String) (mc gc : List String) :
    (find_matching_meta_campaign utm mc ≠ "" → find_matching_google_campaign utm gc ≠ "" →
      (find_matching_google_campaign utm gc).length < (find_matching_meta_campaign utm mc).length →
      process_deals_matched_campaign utm mc gc = find_matching_meta_campaign utm mc) ∧
    (find_matching_meta_campaign utm mc ≠ "" → find_matching_google_campaign utm gc ≠ "" →
      (find_matching_meta_campaign utm mc).length < (find_matching_google_campaign utm gc).length →
      process_deals_matched_campaign utm mc gc = find_matching_google_campaign utm gc) ∧
    (find_matching_meta_campaign utm mc ≠ "" → find_matching_google_campaign utm gc = "" →
      process_deals_matched_campaign utm mc gc = find_matching_meta_campaign utm mc) ∧
    (find_matching_meta_campaign utm mc = "" → find_matching_google_campaign utm gc ≠ "" →
      process_deals_matched_campaign utm mc gc = find_matching_google_campaign utm gc) ∧
    (process_deals_matched_campaign utm mc gc = "" ↔
      find_matching_meta_campaign utm mc = "" ∧ find_matching_google_campaign utm gc = "") :=
  combineMatches_spec (find_matching_meta_campaign utm mc)
    (find_matching_google_campaign utm gc)

/-- Witness for `process_deals_matched_campaign_spec`: both catalogs match
the query and the Google-side match is the longer, so it is returned. -/
theorem process_deals_matched_campaign_spec_witness :
    process_deals_matched_campaign "b2b_brand_auction_2025_q1"
        ["b2b_brand_auction_2024_q4"] ["b2b_brand_auction_2025_q1_longer1"]
      = "b2b_brand_auction_2025_q1_longer1" := by
  have h := (process_deals_matched_campaign_spec "b2b_brand_auction_2025_q1"
      ["b2b_brand_auction_2024_q4"] ["b2b_brand_auction_2025_q1_longer1"]).2.1
      (by decide) (by decide) (by decide)
  exact h.trans (by decide)

/-! ### Association-list dictionary lemmas -/

theorem lookupA_nil {κ β : Type} [DecidableEq κ] (k : κ) :
    lookupA ([] : List (κ × β)) k = none := rfl

theorem lookupA_updateA_self {κ β : Type} [DecidableEq κ] (d : β) (l : List (κ × β))
    (k : κ) (f : β → β) :
    lookupA (updateA d l k f) k = some (f ((lookupA l k).getD d)) := by
  induction l with
  | nil => simp [lookupA, updateA]
  | cons p rest ih =>
    rcases p with ⟨k', v⟩
    by_cases h : k' = k
    · subst h
      simp [lookupA, updateA]
    · simp [lookupA, updateA, h, ih]

theorem lookupA_updateA_ne {κ β : Type} [DecidableEq κ] (d : β) (l : List (κ × β))
    {k q : κ} (f : β → β) (h : q ≠ k) :
    lookupA (updateA d l k f) q = lookupA l q := by
  induction l with
  | nil => simp [lookupA, updateA, Ne.symm h]
  | cons p rest ih =>
    rcases p with ⟨k', v⟩
    by_cases h2 : k' = k
    · subst h2
      simp [lookupA, updateA, Ne.symm h]
    · by_cases h3 : k' = q
      · subst h3
        simp [lookupA, updateA, h2]
      · simp [lookupA, updateA, h2, h3, ih]

/-! ### Accumulator algebra -/

theorem actionSum_nil (label : String) : actionSum label [] = 0 := rfl

theorem actionSum_cons (label : String) (a : String × ℚ) (acts : List (String × ℚ)) :
    actionSum label (a :: acts) = (if a.1 = label then a.2 else 0) + actionSum label acts := by
  unfold actionSum
  by_cases h : a.1 = label
  · rw [List.filter_cons_of_pos (by simp [h]), List.map_cons, List.sum_cons, if_pos h]
  · rw [List.filter_cons_of_neg (by simp [h]), if_neg h, zero_add]

theorem applyActions_eq (acts : List (String × ℚ)) :
    ∀ b : WeeklyBucket, applyActions acts b =
      { b with
        leads := b.leads + actionSum "lead" acts,
        landing_page_views := b.landing_page_views + actionSum "landing_page_view" acts,
        engagement := b.engagement + actionSum "post_engagement" acts } := by
  induction acts with
  | nil =>
    intro b
    show b = _
    ext <;> simp [actionSum_nil]
  | cons a acts ih =>
    intro b
    have hstep : applyActions (a :: acts) b = applyActions acts (stepAct b a) := rfl
    rw [hstep, ih (stepAct b a)]
    unfold stepAct
    by_cases h1 : a.1 = "lead"
    · rw [if_pos h1]
      ext <;> (simp [actionSum_cons, h1]; try ring)
    · by_cases h2 : a.1 = "landing_page_view"
      · rw [if_neg h1, if_pos h2]
        ext <;> (simp [actionSum_cons, h2]; try ring)
      · by_cases h3 : a.1 = "post_engagement"
        · rw [if_neg h1, if_neg h2, if_pos h3]
          ext <;> (simp [actionSum_cons, h3]; try ring)
        · rw [if_neg h1, if_neg h2, if_neg h3]
          ext <;> simp [actionSum_cons, h1, h2, h3]

theorem addRecord_eq (b : WeeklyBucket) (r : MetricRecord) (ws we : ℤ) :
    addRecord b r ws we =
      { campaign_name := r.campaign_name, ad_id := r.ad_id, ad_name := r.ad_name,
        impressions := b.impressions + r.impressions,
        reach := b.reach + r.reach,
        spend := b.spend + r.spend,
        leads := b.leads + actionSum "lead" r.actions,
        landing_page_views := b.landing_page_views + actionSum "landing_page_view" r.actions,
        engagement := b.engagement + actionSum "post_engagement" r.actions,
        outbound_clicks := b.outbound_clicks + r.outbound_clicks.sum,
        video_p25 := b.video_p25 + r.video_p25_watched_actions.sum,
        video_p50 := b.video_p50 + r.video_p50_watched_actions.sum,
        video_p75 := b.video_p75 + r.video_p75_watched_actions.sum,
        week_start := ws, week_end := we } := by
  simp only [addRecord]
  rw [applyActions_eq]

/-! ### Step equations of the aggregation loop -/

theorem aggAds_nil (acc : AdTable) : aggAds [] acc = .ok acc := rfl

theorem aggAds_cons_skip (r : MetricRecord) (rest : List MetricRecord) (acc : AdTable)
    (h : r.date_start = "") : aggAds (r :: rest) acc = aggAds rest acc := by
  conv_lhs => unfold aggAds
  rw [if_pos h]

theorem aggAds_cons_bad (r : MetricRecord) (rest : List MetricRecord) (acc : AdTable)
    (h1 : r.date_start ≠ "") (h2 : parseDate r.date_start = none) :
    aggAds (r :: rest) acc = .error () := by
  conv_lhs => unfold aggAds
  rw [if_neg h1, h2]

theorem aggAds_cons_ok (r : MetricRecord) (rest : List MetricRecord) (acc : AdTable)
    (n : ℤ) (h1 : r.date_start ≠ "") (h2 : parseDate r.date_start = some n) :
    aggAds (r :: rest) acc
      = aggAds rest (updateA emptyBucket acc (r.ad_id, get_week_start n)
          (fun b => addRecord b r (get_week_start n) (get_week_start n + 6))) := by
  conv_lhs => unfold aggAds
  rw [if_neg h1, h2]

theorem recordKey_empty (r : MetricRecord) (h : r.date_start = "") : recordKey r = none := by
  simp [recordKey, h]

theorem recordKey_parsed (r : MetricRecord) (n : ℤ) (h1 : r.date_start ≠ "")
    (h2 : parseDate r.date_start = some n) :
    recordKey r = some (r.ad_id, get_week_start n) := by
  simp [recordKey, h1, h2]

theorem bucketFor_nil (k : String × ℤ) (init : Option WeeklyBucket) :
    bucketFor [] k init = init := rfl

theorem bucketFor_cons (r : MetricRecord) (recs : List MetricRecord) (k : String × ℤ)
    (init : Option WeeklyBucket) :
    bucketFor (r :: recs) k init
      = bucketFor recs k (if recordKey r = some k then some (stepKey k init r) else init) := by
  unfold bucketFor
  rw [List.foldl_cons]

/-- Characterization of the per-key fold: every numeric field of a resulting
bucket is the initial value plus the sum of the contributions of exactly the
records keyed to `k`, and the descriptive fields are those of the last such
record. -/
theorem bucketFor_spec (k : String × ℤ) (recs : List MetricRecord) :
    ∀ (init : Option WeeklyBucket) (b : WeeklyBucket),
      bucketFor recs k init = some b →
      b.impressions = (init.getD emptyBucket).impressions
          + ((recs.filter fun r => recordKey r = some k).map MetricRecord.impressions).sum ∧
      b.reach = (init.getD emptyBucket).reach
          + ((recs.filter fun r => recordKey r = some k).map MetricRecord.reach).sum ∧
      b.spend = (init.getD emptyBucket).spend
          + ((recs.filter fun r => recordKey r = some k).map MetricRecord.spend).sum ∧
      b.outbound_clicks = (init.getD emptyBucket).outbound_clicks
          + ((recs.filter fun r => recordKey r = some k).map
              (fun r => r.outbound_clicks.sum)).sum ∧
      b.leads = (init.getD emptyBucket).leads
          + ((recs.filter fun r => recordKey r = some k).map
              (fun r => actionSum "lead" r.actions)).sum ∧
      b.landing_page_views = (init.getD emptyBucket).landing_page_views
          + ((recs.filter fun r => recordKey r = some k).map
              (fun r => actionSum "landing_page_view" r.actions)).sum ∧
      b.engagement = (init.getD emptyBucket).engagement
          + ((recs.filter fun r => recordKey r = some k).map
              (fun r => actionSum "post_engagement" r.actions)).sum ∧
      b.video_p25 = (init.getD emptyBucket).video_p25
          + ((recs.filter fun r => recordKey r = some k).map
              (fun r => r.video_p25_watched_actions.sum)).sum ∧
      b.video_p50 = (init.getD emptyBucket).video_p50
          + ((recs.filter fun r => recordKey r = some k).map
              (fun r => r.video_p50_watched_actions.sum)).sum ∧
      b.video_p75 = (init.getD emptyBucket).video_p75
          + ((recs.filter fun r => recordKey r = some k).map
              (fun r => r.video_p75_watched_actions.sum)).sum ∧
      ((recs.filter fun r => recordKey r = some k) = [] → init = some b) ∧
      (∀ rl, (recs.filter fun r => recordKey r = some k).getLast? = some rl →
        b.campaign_name = rl.campaign_name ∧ b.ad_id = rl.ad_id ∧ b.ad_name = rl.ad_name ∧
        b.week_start = k.2 ∧ b.week_end = k.2 + 6) := by
  induction recs with
  | nil =>
    intro init b h
    rw [bucketFor_nil] at h
    subst h
    refine ⟨by simp, by simp, by simp, by simp, by simp, by simp, by simp, by simp,
      by simp, by simp, fun _ => rfl, fun rl hrl => by simp at hrl⟩
  | cons r rest ih =>
    intro init b h
    rw [bucketFor_cons] at h
    by_cases hk : recordKey r = some k
    · rw [if_pos hk] at h
      rcases ih (some (stepKey k init r)) b h with
        ⟨h1, h2, h3, h4, h5, h6, h7, h8, h9, h10, h11, h12⟩
      have hstep : stepKey k init r = addRecord (init.getD emptyBucket) r k.2 (k.2 + 6) := rfl
      simp only [Option.getD_some, hstep, addRecord_eq] at h1 h2 h3 h4 h5 h6 h7 h8 h9 h10 h11
      rw [List.filter_cons_of_pos (by simp [hk])]
      simp only [List.map_cons, List.sum_cons]
      refine ⟨by rw [h1]; ring, by rw [h2]; ring, by rw [h3]; ring, by rw [h4]; ring,
        by rw [h5]; ring, by rw [h6]; ring, by rw [h7]; ring, by rw [h8]; ring,
        by rw [h9]; ring, by rw [h10]; ring, ?_, ?_⟩
      · intro hemp
        simp at hemp
      · intro rl hrl
        cases hfe : rest.filter (fun r => recordKey r = some k) with
        | nil =>
          rw [hfe] at hrl
          simp only [List.getLast?_singleton, Option.some.injEq] at hrl
          subst hrl
          have hb := Option.some.inj (h11 hfe)
          rw [← hb]
          simp
        | cons x xs =>
          rw [hfe, List.getLast?_cons_cons] at hrl
          exact h12 rl (by rw [hfe]; exact hrl)
    · rw [if_neg hk] at h
      rcases ih init b h with ⟨h1, h2, h3, h4, h5, h6, h7, h8, h9, h10, h11, h12⟩
      rw [List.filter_cons_of_neg (by simp [hk])]
      exact ⟨h1, h2, h3, h4, h5, h6, h7, h8, h9, h10, h11, h12⟩

/-- Relating the imperative loop of `aggregate_ads_daily_to_weekly` to the
per-key fold: on success, the entry of every key `k` of the produced table is
the per-key fold of the inputs over the corresponding entry of the initial
table. -/
theorem aggAds_lookup (recs : List MetricRecord) :
    ∀ (acc m : AdTable), aggAds recs acc = .ok m →
      ∀ k, lookupA m k = bucketFor recs k (lookupA acc k) := by
  induction recs with
  | nil =>
    intro acc m h k
    rw [aggAds_nil] at h
    cases h
    rfl
  | cons r rest ih =>
    intro acc m h k
    by_cases hd : r.date_start = ""
    · rw [aggAds_cons_skip r rest acc hd] at h
      rw [bucketFor_cons, if_neg (by simp [recordKey_empty r hd])]
      exact ih acc m h k
    · cases hp : parseDate r.date_start with
      | none =>
        rw [aggAds_cons_bad r rest acc hd hp] at h
        cases h
      | some n =>
        rw [aggAds_cons_ok r rest acc n hd hp] at h
        have hkey := recordKey_parsed r n hd hp
        by_cases hkk : (r.ad_id, get_week_start n) = k
        · subst hkk
          rw [bucketFor_cons, if_pos hkey]
          have := ih _ m h (r.ad_id, get_week_start n)
          rw [this, lookupA_updateA_self]
          rfl
        · rw [bucketFor_cons, if_neg (by rw [hkey]; simp [hkk])]
          have := ih _ m h k
          rw [this, lookupA_updateA_ne _ _ _ (fun he => hkk he.symm)]

theorem aggAds_bucketFor (recs : List MetricRecord) (m : AdTable)
    (h : aggAds recs [] = .ok m) (k : String × ℤ) (b : WeeklyBucket)
    (hb : lookupA m k = some b) : bucketFor recs k none = some b := by
  have hl := aggAds_lookup recs [] m h k
  rw [lookupA_nil] at hl
  rw [hb] at hl
  exact hl.symm

/-! ### C2: malformed-date handling -/

/-- Counterexample to claim C2: a single record whose non-empty `date_start`
is unparseable is not skipped gracefully — `strptime` raises (modelled as
`Except.error`), so the aggregator raises rather than yielding a mapping. -/
theorem unparseable_date_error_counterexample :
    aggregate_ads_daily_to_weekly [recBadDate] = .error () := rfl

/-- Claim C2 as amended: a record whose date field is missing (empty) is
skipped — it contributes to no bucket and raises nothing — and aggregating
zero records yields the empty mapping; but a record with a **non-empty
unparseable** date makes the aggregator raise (`strptime`'s `ValueError`),
rather than being skipped. -/
theorem malformed_date_handling_amended :
    (∀ (r : MetricRecord) (recs : List MetricRecord) (acc : AdTable), r.date_start = "" →
      aggAds (r :: recs) acc = aggAds recs acc) ∧
    aggregate_ads_daily_to_weekly [] = .ok [] ∧
    (∀ (r : MetricRecord) (recs : List MetricRecord) (acc : AdTable),
      r.date_start ≠ "" → parseDate r.date_start = none →
      aggAds (r :: recs) acc = .error ()) :=
  ⟨fun r recs acc hempty => aggAds_cons_skip r recs acc hempty, rfl,
    fun r recs acc h1 h2 => aggAds_cons_bad r recs acc h1 h2⟩

/-- Witness for `malformed_date_handling_amended`: the skip clause at a
default record (empty date) and the raise clause at `recBadDate`. -/
theorem malformed_date_handling_amended_witness :
    aggAds [({} : MetricRecord)] [] = aggAds [] [] ∧
    aggAds [recBadDate] [] = .error () := by
  exact ⟨malformed_date_handling_amended.1 {} [] [] rfl,
    malformed_date_handling_amended.2.2 recBadDate [] [] (by decide) rfl⟩

/-! ### C7: per-bucket sums, order-independence -/

/-- Claim C7: on success, every bucket's summed numeric fields (impressions,
reach, spend, outbound clicks, each tracked action count, video counts)
equal the sum of that field over exactly the records keyed to that
`(ad_id, week_start)` bucket, and any permutation of the input that also
succeeds produces the same numeric fields for the bucket. -/
theorem aggregate_week_sums (recs : List MetricRecord) (m : AdTable)
    (h : aggAds recs [] = .ok m) (k : String × ℤ) (b : WeeklyBucket)
    (hb : lookupA m k = some b) :
    (b.impressions
        = ((recs.filter fun r => recordKey r = some k).map MetricRecord.impressions).sum ∧
      b.reach = ((recs.filter fun r => recordKey r = some k).map MetricRecord.reach).sum ∧
      b.spend = ((recs.filter fun r => recordKey r = some k).map MetricRecord.spend).sum ∧
      b.outbound_clicks = ((recs.filter fun r => recordKey r = some k).map
          (fun r => r.outbound_clicks.sum)).sum ∧
      b.leads = ((recs.filter fun r => recordKey r = some k).map
          (fun r => actionSum "lead" r.actions)).sum ∧
      b.landing_page_views = ((recs.filter fun r => recordKey r = some k).map
          (fun r => actionSum "landing_page_view" r.actions)).sum ∧
      b.engagement = ((recs.filter fun r => recordKey r = some k).map
          (fun r => actionSum "post_engagement" r.actions)).sum ∧
      b.video_p25 = ((recs.filter fun r => recordKey r = some k).map
          (fun r => r.video_p25_watched_actions.sum)).sum ∧
      b.video_p50 = ((recs.filter fun r => recordKey r = some k).map
          (fun r => r.video_p50_watched_actions.sum)).sum ∧
      b.video_p75 = ((recs.filter fun r => recordKey r = some k).map
          (fun r => r.video_p75_watched_actions.sum)).sum) ∧
    (∀ (recs' : List MetricRecord) (m' : AdTable) (b' : WeeklyBucket),
      recs.Perm recs' → aggAds recs' [] = .ok m' → lookupA m' k = some b' →
      b'.impressions = b.impressions ∧ b'.reach = b.reach ∧ b'.spend = b.spend ∧
      b'.outbound_clicks = b.outbound_clicks ∧ b'.leads = b.leads ∧
      b'.landing_page_views = b.landing_page_views ∧ b'.engagement = b.engagement ∧
      b'.video_p25 = b.video_p25 ∧ b'.video_p50 = b.video_p50 ∧
      b'.video_p75 = b.video_p75) := by
  have hbf := aggAds_bucketFor recs m h k b hb
  rcases bucketFor_spec k recs none b hbf with
    ⟨h1, h2, h3, h4, h5, h6, h7, h8, h9, h10, _, _⟩
  simp only [Option.getD_none, emptyBucket, zero_add] at h1 h2 h3 h4 h5 h6 h7 h8 h9 h10
  refine ⟨⟨h1, h2, h3, h4, h5, h6, h7, h8, h9, h10⟩, ?_⟩
  intro recs' m' b' hperm h' hb'
  have hbf' := aggAds_bucketFor recs' m' h' k b' hb'
  rcases bucketFor_spec k recs' none b' hbf' with
    ⟨g1, g2, g3, g4, g5, g6, g7, g8, g9, g10, _, _⟩
  simp only [Option.getD_none, emptyBucket, zero_add] at g1 g2 g3 g4 g5 g6 g7 g8 g9 g10
  have hfp := List.Perm.filter (fun r => decide (recordKey r = some k)) hperm
  exact ⟨by rw [g1, h1]; exact ((hfp.map MetricRecord.impressions).sum_eq).symm,
    by rw [g2, h2]; exact ((hfp.map MetricRecord.reach).sum_eq).symm,
    by rw [g3, h3]; exact ((hfp.map MetricRecord.spend).sum_eq).symm,
    by rw [g4, h4]; exact ((hfp.map (fun r => r.outbound_clicks.sum)).sum_eq).symm,
    by rw [g5, h5]; exact ((hfp.map (fun r => actionSum "lead" r.actions)).sum_eq).symm,
    by rw [g6, h6]; exact
      ((hfp.map (fun r => actionSum "landing_page_view" r.actions)).sum_eq).symm,
    by rw [g7, h7]; exact
      ((hfp.map (fun r => actionSum "post_engagement" r.actions)).sum_eq).symm,
    by rw [g8, h8]; exact ((hfp.map (fun r => r.video_p25_watched_actions.sum)).sum_eq).symm,
    by rw [g9, h9]; exact ((hfp.map (fun r => r.video_p50_watched_actions.sum)).sum_eq).symm,
    by rw [g10, h10]; exact ((hfp.map (fun r => r.video_p75_watched_actions.sum)).sum_eq).symm⟩

/-- Witness for `aggregate_week_sums`: the two sample records of the same ad
and week aggregate into `sampleBucket`, whose impressions equal the summed
daily impressions (140) and whose leads equal the summed `lead` actions. -/
theorem aggregate_week_sums_witness :
    aggAds [recMonA, recTueA] [] = .ok sampleTable ∧
    lookupA sampleTable sampleKey = some sampleBucket ∧
    sampleBucket.impressions
      = (([recMonA, recTueA].filter fun r => recordKey r = some sampleKey).map
          MetricRecord.impressions).sum ∧
    sampleBucket.impressions = 140 ∧ sampleBucket.leads = 3 := by
  refine ⟨rfl, rfl, ?_, by with_unfolding_all rfl, by with_unfolding_all rfl⟩
  exact (aggregate_week_sums [recMonA, recTueA] sampleTable rfl sampleKey
    sampleBucket rfl).1.1

/-! ### Google aggregation lemmas -/

theorem shareAdd_none : shareAdd none = 0 := rfl

theorem shareAdd_some_pos {v : ℚ} (h : 0 < v) : shareAdd (some v) = v := by
  simp [shareAdd, Option.filter, h]

theorem shareAdd_some_nonpos {v : ℚ} (h : ¬0 < v) : shareAdd (some v) = 0 := by
  simp [shareAdd, Option.filter, h]

theorem shareCnt_none : shareCnt none = 0 := rfl

theorem shareCnt_some_pos {v : ℚ} (h : 0 < v) : shareCnt (some v) = 1 := by
  simp [shareCnt, Option.filter, h]

theorem shareCnt_some_nonpos {v : ℚ} (h : ¬0 < v) : shareCnt (some v) = 0 := by
  simp [shareCnt, Option.filter, h]

theorem addGoogleRecord_eq (b : GoogleBucket) (r : GoogleRecord) (ws we : ℤ) :
    addGoogleRecord b r ws we =
      { campaign_name := r.campaign_name, currency_code := r.currency_code,
        cost_micros := b.cost_micros + r.cost_micros,
        impressions := b.impressions + r.impressions,
        clicks := b.clicks + r.clicks,
        search_impression_share_sum :=
          b.search_impression_share_sum + shareAdd r.search_impression_share,
        search_impression_share_count :=
          b.search_impression_share_count + shareCnt r.search_impression_share,
        search_click_share_sum := b.search_click_share_sum + shareAdd r.search_click_share,
        search_click_share_count := b.search_click_share_count + shareCnt r.search_click_share,
        week_start := ws, week_end := we } := by
  cases hs : r.search_impression_share with
  | none =>
    cases hc : r.search_click_share with
    | none => ext <;> simp [addGoogleRecord, hs, hc, shareAdd_none, shareCnt_none]
    | some v =>
      by_cases hv : 0 < v
      · ext <;> simp [addGoogleRecord, hs, hc, hv, shareAdd_none, shareCnt_none,
          shareAdd_some_pos hv, shareCnt_some_pos hv]
      · ext <;> simp [addGoogleRecord, hs, hc, hv, shareAdd_none, shareCnt_none,
          shareAdd_some_nonpos hv, shareCnt_some_nonpos hv]
  | some u =>
    by_cases hu : 0 < u
    · cases hc : r.search_click_share with
      | none =>
        ext <;> simp [addGoogleRecord, hs, hc, hu, shareAdd_none, shareCnt_none,
          shareAdd_some_pos hu, shareCnt_some_pos hu]
      | some v =>
        by_cases hv : 0 < v
        · ext <;> simp [addGoogleRecord, hs, hc, hu, hv, shareAdd_some_pos hu,
            shareCnt_some_pos hu, shareAdd_some_pos hv, shareCnt_some_pos hv]
        · ext <;> simp [addGoogleRecord, hs, hc, hu, hv, shareAdd_some_pos hu,
            shareCnt_some_pos hu, shareAdd_some_nonpos hv, shareCnt_some_nonpos hv]
    · cases hc : r.search_click_share with
      | none =>
        ext <;> simp [addGoogleRecord, hs, hc, hu, shareAdd_none, shareCnt_none,
          shareAdd_some_nonpos hu, shareCnt_some_nonpos hu]
      | some v =>
        by_cases hv : 0 < v
        · ext <;> simp [addGoogleRecord, hs, hc, hu, hv, shareAdd_some_nonpos hu,
            shareCnt_some_nonpos hu, shareAdd_some_pos hv, shareCnt_some_pos hv]
        · ext <;> simp [addGoogleRecord, hs, hc, hu, hv, shareAdd_some_nonpos hu,
            shareCnt_some_nonpos hu, shareAdd_some_nonpos hv, shareCnt_some_nonpos hv]

theorem posShares_cons_sum (f : GoogleRecord → Option ℚ) (r : GoogleRecord)
    (l : List GoogleRecord) :
    (posShares f (r :: l)).sum = shareAdd (f r) + (posShares f l).sum := by
  cases ho : (f r).filter (fun v => 0 < v) with
  | none => simp [posShares, List.filterMap_cons, ho, shareAdd]
  | some v => simp [posShares, List.filterMap_cons, ho, shareAdd]

theorem posShares_cons_len (f : GoogleRecord → Option ℚ) (r : GoogleRecord)
    (l : List GoogleRecord) :
    ((posShares f (r :: l)).length : ℤ) = shareCnt (f r) + (posShares f l).length := by
  cases ho : (f r).filter (fun v => 0 < v) with
  | none => simp [posShares, List.filterMap_cons, ho, shareCnt]
  | some v =>
    simp [posShares, List.filterMap_cons, ho, shareCnt]
    omega

theorem posShares_pos (f : GoogleRecord → Option ℚ) :
    ∀ l : List GoogleRecord, ∀ v ∈ posShares f l, 0 < v := by
  intro l
  induction l with
  | nil => intro v hv; simp [posShares] at hv
  | cons r rest ih =>
    intro v hv
    rcases ho : (f r).filter (fun v => 0 < v) with _ | w
    · rw [posShares, List.filterMap_cons, ho] at hv
      exact ih v hv
    · rw [posShares, List.filterMap_cons, ho] at hv
      rcases List.mem_cons.1 hv with h | h
      · subst h
        rcases hfr : f r with _ | u
        · rw [hfr] at ho; simp [Option.filter] at ho
        · rw [hfr] at ho
          simp only [Option.filter] at ho
          split at ho
          · rename_i hpos
            cases ho
            simpa using hpos
          · cases ho
      · exact ih v h

theorem gBucketFor_nil (k : String × ℤ) (init : Option GoogleBucket) :
    gBucketFor [] k init = init := rfl

theorem gBucketFor_cons (r : GoogleRecord) (recs : List GoogleRecord) (k : String × ℤ)
    (init : Option GoogleBucket) :
    gBucketFor (r :: recs) k init
      = gBucketFor recs k (if googleKey r = some k then some (gStepKey k init r) else init) := by
  unfold gBucketFor
  rw [List.foldl_cons]

theorem gBucketFor_spec (k : String × ℤ) (recs : List GoogleRecord) :
    ∀ (init : Option GoogleBucket) (b : GoogleBucket),
      gBucketFor recs k init = some b →
      b.search_impression_share_sum = (init.getD emptyGoogleBucket).search_impression_share_sum
          + (posShares GoogleRecord.search_impression_share
              (recs.filter fun r => googleKey r = some k)).sum ∧
      b.search_impression_share_count
          = (init.getD emptyGoogleBucket).search_impression_share_count
          + ((posShares GoogleRecord.search_impression_share
              (recs.filter fun r => googleKey r = some k)).length : ℤ) ∧
      b.search_click_share_sum = (init.getD emptyGoogleBucket).search_click_share_sum
          + (posShares GoogleRecord.search_click_share
              (recs.filter fun r => googleKey r = some k)).sum ∧
      b.search_click_share_count = (init.getD emptyGoogleBucket).search_click_share_count
          + ((posShares GoogleRecord.search_click_share
              (recs.filter fun r => googleKey r = some k)).length : ℤ) ∧
      ((recs.filter fun r => googleKey r = some k) = [] → init = some b) ∧
      (∀ rl, (recs.filter fun r => googleKey r = some k).getLast? = some rl →
        b.campaign_name = rl.campaign_name ∧ b.currency_code = rl.currency_code ∧
        b.week_start = k.2 ∧ b.week_end = k.2 + 6) := by
  induction recs with
  | nil =>
    intro init b h
    rw [gBucketFor_nil] at h
    subst h
    refine ⟨by simp [posShares], by simp [posShares], by simp [posShares], by simp [posShares],
      fun _ => rfl, fun rl hrl => by simp at hrl⟩
  | cons r rest ih =>
    intro init b h
    rw [gBucketFor_cons] at h
    by_cases hk : googleKey r = some k
    · rw [if_pos hk] at h
      rcases ih (some (gStepKey k init r)) b h with ⟨h1, h2, h3, h4, h5, h6⟩
      have hstep : gStepKey k init r
          = addGoogleRecord (init.getD emptyGoogleBucket) r k.2 (k.2 + 6) := rfl
      simp only [Option.getD_some, hstep, addGoogleRecord_eq] at h1 h2 h3 h4 h5
      rw [List.filter_cons_of_pos (by simp [hk])]
      refine ⟨by rw [h1, posShares_cons_sum]; ring,
        by rw [h2, posShares_cons_len]; ring,
        by rw [h3, posShares_cons_sum]; ring,
        by rw [h4, posShares_cons_len]; ring, ?_, ?_⟩
      · intro hemp
        simp at hemp
      · intro rl hrl
        cases hfe : rest.filter (fun r => googleKey r = some k) with
        | nil =>
          rw [hfe] at hrl
          simp only [List.getLast?_singleton, Option.some.injEq] at hrl
          subst hrl
          have hb := Option.some.inj (h5 hfe)
          rw [← hb]
          simp
        | cons x xs =>
          rw [hfe, List.getLast?_cons_cons] at hrl
          exact h6 rl (by rw [hfe]; exact hrl)
    · rw [if_neg hk] at h
      rcases ih init b h with ⟨h1, h2, h3, h4, h5, h6⟩
      rw [List.filter_cons_of_neg (by simp [hk])]
      exact ⟨h1, h2, h3, h4, h5, h6⟩

theorem aggGoogle_nil (acc : GTable) : aggGoogle [] acc = .ok acc := rfl

theorem aggGoogle_cons_skip (r : GoogleRecord) (rest : List GoogleRecord) (acc : GTable)
    (h : r.date = "") : aggGoogle (r :: rest) acc = aggGoogle rest acc := by
  conv_lhs => unfold aggGoogle
  rw [if_pos h]

theorem aggGoogle_cons_bad (r : GoogleRecord) (rest : List GoogleRecord) (acc : GTable)
    (h1 : r.date ≠ "") (h2 : parseDate r.date = none) :
    aggGoogle (r :: rest) acc = .error () := by
  conv_lhs => unfold aggGoogle
  rw [if_neg h1, h2]

theorem aggGoogle_cons_ok (r : GoogleRecord) (rest : List GoogleRecord) (acc : GTable)
    (n : ℤ) (h1 : r.date ≠ "") (h2 : parseDate r.date = some n) :
    aggGoogle (r :: rest) acc
      = aggGoogle rest (updateA emptyGoogleBucket acc (r.campaign_name, get_week_start n)
          (fun b => addGoogleRecord b r (get_week_start n) (get_week_start n + 6))) := by
  conv_lhs => unfold aggGoogle
  rw [if_neg h1, h2]

theorem googleKey_empty (r : GoogleRecord) (h : r.date = "") : googleKey r = none := by
  simp [googleKey, h]

theorem googleKey_parsed (r : GoogleRecord) (n : ℤ) (h1 : r.date ≠ "")
    (h2 : parseDate r.date = some n) :
    googleKey r = some (r.campaign_name, get_week_start n) := by
  simp [googleKey, h1, h2]

theorem aggGoogle_lookup (recs : List GoogleRecord) :
    ∀ (acc m : GTable), aggGoogle recs acc = .ok m →
      ∀ k, lookupA m k = gBucketFor recs k (lookupA acc k) := by
  induction recs with
  | nil =>
    intro acc m h k
    rw [aggGoogle_nil] at h
    cases h
    rfl
  | cons r rest ih =>
    intro acc m h k
    by_cases hd : r.date = ""
    · rw [aggGoogle_cons_skip r rest acc hd] at h
      rw [gBucketFor_cons, if_neg (by simp [googleKey_empty r hd])]
      exact ih acc m h k
    · cases hp : parseDate r.date with
      | none =>
        rw [aggGoogle_cons_bad r rest acc hd hp] at h
        cases h
      | some n =>
        rw [aggGoogle_cons_ok r rest acc n hd hp] at h
        have hkey := googleKey_parsed r n hd hp
        by_cases hkk : (r.campaign_name, get_week_start n) = k
        · subst hkk
          rw [gBucketFor_cons, if_pos hkey]
          have := ih _ m h (r.campaign_name, get_week_start n)
          rw [this, lookupA_updateA_self]
          rfl
        · rw [gBucketFor_cons, if_neg (by rw [hkey]; simp [hkk])]
          have := ih _ m h k
          rw [this, lookupA_updateA_ne _ _ _ (fun he => hkk he.symm)]

theorem aggGoogle_bucketFor (recs : List GoogleRecord) (m : GTable)
    (h : aggGoogle recs [] = .ok m) (k : String × ℤ) (b : GoogleBucket)
    (hb : lookupA m k = some b) : gBucketFor recs k none = some b := by
  have hl := aggGoogle_lookup recs [] m h k
  rw [lookupA_nil] at hl
  rw [hb] at hl
  exact hl.symm

/-! ### C9: share averaging -/

/-- Claim C9: a weekly bucket's `search_impression_share` and
`search_click_share` are the arithmetic mean over exactly the daily records
of that week where the platform reported a strictly positive value (absent
or non-positive dailies enter neither sum nor count), and the corresponding
row cell holds the (4-decimal rounded) mean when at least one valid
observation exists, an empty cell otherwise. -/
theorem google_share_weekly_average (recs : List GoogleRecord) (m : GTable)
    (h : aggGoogle recs [] = .ok m) (k : String × ℤ) (b : GoogleBucket)
    (hb : lookupA m k = some b) :
    b.search_impression_share_sum
      = (posShares GoogleRecord.search_impression_share
          (recs.filter fun r => googleKey r = some k)).sum ∧
    b.search_impression_share_count
      = ((posShares GoogleRecord.search_impression_share
          (recs.filter fun r => googleKey r = some k)).length : ℤ) ∧
    b.search_click_share_sum
      = (posShares GoogleRecord.search_click_share
          (recs.filter fun r => googleKey r = some k)).sum ∧
    b.search_click_share_count
      = ((posShares GoogleRecord.search_click_share
          (recs.filter fun r => googleKey r = some k)).length : ℤ) ∧
    (∀ hs : List String,
      (googleRow b hs).getD 9 (Cell.str "")
        = if 0 < (posShares GoogleRecord.search_impression_share
              (recs.filter fun r => googleKey r = some k)).length
          then Cell.num (pyRound 4
            ((posShares GoogleRecord.search_impression_share
                (recs.filter fun r => googleKey r = some k)).sum
              / ((posShares GoogleRecord.search_impression_share
                  (recs.filter fun r => googleKey r = some k)).length : ℚ)))
          else Cell.str "") ∧
    (∀ hs : List String,
      (googleRow b hs).getD 10 (Cell.str "")
        = if 0 < (posShares GoogleRecord.search_click_share
              (recs.filter fun r => googleKey r = some k)).length
          then Cell.num (pyRound 4
            ((posShares GoogleRecord.search_click_share
                (recs.filter fun r => googleKey r = some k)).sum
              / ((posShares GoogleRecord.search_click_share
                  (recs.filter fun r => googleKey r = some k)).length : ℚ)))
          else Cell.str "") := by
  have hbf := aggGoogle_bucketFor recs m h k b hb
  rcases gBucketFor_spec k recs none b hbf with ⟨c1, c2, c3, c4, _, _⟩
  simp only [Option.getD_none, emptyGoogleBucket, zero_add] at c1 c2 c3 c4
  have hcellJ : ∀ hs : List String,
      (googleRow b hs).getD 9 (Cell.str "")
        = if 0 < (if 0 < b.search_impression_share_count then
              b.search_impression_share_sum / (b.search_impression_share_count : ℚ) else 0)
          then Cell.num (pyRound 4 (if 0 < b.search_impression_share_count then
              b.search_impression_share_sum / (b.search_impression_share_count : ℚ) else 0))
          else Cell.str "" := fun hs => rfl
  have hcellK : ∀ hs : List String,
      (googleRow b hs).getD 10 (Cell.str "")
        = if 0 < (if 0 < b.search_click_share_count then
              b.search_click_share_sum / (b.search_click_share_count : ℚ) else 0)
          then Cell.num (pyRound 4 (if 0 < b.search_click_share_count then
              b.search_click_share_sum / (b.search_click_share_count : ℚ) else 0))
          else Cell.str "" := fun hs => rfl
  have hmean : ∀ (sum : ℚ) (cnt : ℤ) (obs : List ℚ), sum = obs.sum → cnt = obs.length →
      (∀ v ∈ obs, 0 < v) →
      (if 0 < (if 0 < cnt then sum / (cnt : ℚ) else 0)
        then Cell.num (pyRound 4 (if 0 < cnt then sum / (cnt : ℚ) else 0))
        else Cell.str "")
      = if 0 < obs.length
        then Cell.num (pyRound 4 (obs.sum / (obs.length : ℚ)))
        else Cell.str "" := by
    intro sum cnt obs hsum hcnt hpos
    subst hsum
    subst hcnt
    by_cases hlen : 0 < obs.length
    · have hne : obs ≠ [] := List.length_pos.mp hlen
      have hcnt2 : (0 : ℤ) < (obs.length : ℤ) := by exact_mod_cast hlen
      have hspos : 0 < obs.sum := List.sum_pos obs hpos hne
      have hq : (0 : ℚ) < ((obs.length : ℤ) : ℚ) := by exact_mod_cast hlen
      rw [if_pos hcnt2, if_pos hlen, if_pos (div_pos hspos hq)]
      norm_cast
    · have hlz : obs.length = 0 := by omega
      simp [hlz]
  refine ⟨c1, c2, c3, c4, ?_, ?_⟩
  · intro hs
    rw [hcellJ hs]
    exact hmean _ _ _ c1 c2 (posShares_pos _ _)
  · intro hs
    rw [hcellK hs]
    exact hmean _ _ _ c3 c4 (posShares_pos _ _)

/-- Witness for `google_share_weekly_average`: the two sample Google records
yield an impression-share sum over exactly the positive observations
(`1/2 + 1/4 = 3/4` over a count of 2), an impression-share cell `0.375`
(their mean), and an empty click-share cell (no valid observation: one
absent, one zero). -/
theorem google_share_weekly_average_witness :
    aggGoogle [gRecMon, gRecTue] [] = .ok gTable ∧
    lookupA gTable gKeyW = some gBucketW ∧
    gBucketW.search_impression_share_sum
      = (posShares GoogleRecord.search_impression_share
          ([gRecMon, gRecTue].filter fun r => googleKey r = some gKeyW)).sum ∧
    gBucketW.search_impression_share_sum = 3/4 ∧
    gBucketW.search_impression_share_count = 2 ∧
    (googleRow gBucketW []).getD 9 (Cell.str "") = Cell.num (3/8) ∧
    (googleRow gBucketW []).getD 10 (Cell.str "") = Cell.str "" := by
  refine ⟨rfl, rfl, ?_, by with_unfolding_all rfl, by with_unfolding_all rfl,
    by with_unfolding_all rfl, by with_unfolding_all rfl⟩
  exact (google_share_weekly_average [gRecMon, gRecTue] gTable rfl gKeyW gBucketW rfl).1

/-! ### C1: undefined-metric rendering -/

theorem pyRound_zero (n : ℕ) : pyRound n 0 = 0 := by norm_num [pyRound]

/-- Counterexample to claim C1: a delivered bucket with `reach = 0` (and
`landing_page_views = 0`) renders the frequency cell F and the conversion
rate cell K as the number `0`, not as an empty cell — those two ratios are
written unguarded (`round(frequency, 2)`, `round(cr, 4)`) in
`process_weekly_ad_data`. -/
theorem ratio_empty_cell_counterexample :
    ((process_weekly_ad_data [cxBucket] []).getD 0 []).getD 5 (Cell.str "") = Cell.num 0 ∧
    ((process_weekly_ad_data [cxBucket] []).getD 0 []).getD 10 (Cell.str "") = Cell.num 0 ∧
    Cell.num 0 ≠ Cell.str "" := by
  refine ⟨by with_unfolding_all rfl, by with_unfolding_all rfl, by decide⟩

/-- Claim C1 as amended: the ratio metrics the code guards do render as empty
cells — hold rate and traffic loss rate when `video_p25 = 0`; results, cost
per result, leads and cost per lead when `leads = 0`; outbound clicks,
outbound CTR and cost per outbound click when `outbound_clicks = 0`; the
landing-page-view count when it is 0; Google CPC when `clicks = 0`; and the
search shares when no valid observation exists — but frequency renders as
the number `0` when `reach = 0`, and the conversion rate renders as `0` when
`landing_page_views = 0` (CPM, ER, hook rate and CTR always have a positive
denominator because zero-impression buckets are filtered out). -/
theorem ratio_empty_cell_amended :
    (∀ (b : WeeklyBucket) (hs : List String),
      (b.video_p25 = 0 →
        (metaRow b hs).getD 17 (Cell.str "") = Cell.str "" ∧
        (metaRow b hs).getD 18 (Cell.str "") = Cell.str "") ∧
      (b.leads = 0 →
        (metaRow b hs).getD 8 (Cell.str "") = Cell.str "" ∧
        (metaRow b hs).getD 9 (Cell.str "") = Cell.str "" ∧
        (metaRow b hs).getD 20 (Cell.str "") = Cell.str "" ∧
        (metaRow b hs).getD 21 (Cell.str "") = Cell.str "") ∧
      (b.outbound_clicks = 0 →
        (metaRow b hs).getD 12 (Cell.str "") = Cell.str "" ∧
        (metaRow b hs).getD 13 (Cell.str "") = Cell.str "" ∧
        (metaRow b hs).getD 14 (Cell.str "") = Cell.str "") ∧
      (b.landing_page_views = 0 →
        (metaRow b hs).getD 19 (Cell.str "") = Cell.str "" ∧
        (metaRow b hs).getD 10 (Cell.str "") = Cell.num 0) ∧
      (b.reach = 0 → (metaRow b hs).getD 5 (Cell.str "") = Cell.num 0)) ∧
    (∀ (g : GoogleBucket) (hs : List String),
      (g.clicks = 0 → (googleRow g hs).getD 8 (Cell.str "") = Cell.str "") ∧
      (g.search_impression_share_count = 0 →
        (googleRow g hs).getD 9 (Cell.str "") = Cell.str "") ∧
      (g.search_click_share_count = 0 →
        (googleRow g hs).getD 10 (Cell.str "") = Cell.str "")) := by
  constructor
  · intro b hs
    refine ⟨fun h => ⟨by simp [metaRow, h], by simp [metaRow, h]⟩,
      fun h => ⟨by simp [metaRow, h], by simp [metaRow, h], by simp [metaRow, h],
        by simp [metaRow, h]⟩,
      fun h => ⟨by simp [metaRow, h], by simp [metaRow, h], by simp [metaRow, h]⟩,
      fun h => ⟨by simp [metaRow, h], by simp [metaRow, h, pyRound_zero]⟩,
      fun h => by simp [metaRow, h, pyRound_zero]⟩
  · intro g hs
    refine ⟨fun h => by simp [googleRow, h], fun h => by simp [googleRow, h],
      fun h => by simp [googleRow, h]⟩

/-- Witness for `ratio_empty_cell_amended`: the guarded cells of the
all-zero-denominator sample buckets. -/
theorem ratio_empty_cell_amended_witness :
    (metaRow cxBucket []).getD 17 (Cell.str "") = Cell.str "" ∧
    (metaRow cxBucket []).getD 21 (Cell.str "") = Cell.str "" ∧
    (metaRow cxBucket []).getD 5 (Cell.str "") = Cell.num 0 ∧
    (googleRow cxGoogleBucket []).getD 8 (Cell.str "") = Cell.str "" ∧
    (googleRow cxGoogleBucket []).getD 9 (Cell.str "") = Cell.str "" := by
  refine ⟨(ratio_empty_cell_amended.1 cxBucket [] |>.1 (by decide)).1,
    (ratio_empty_cell_amended.1 cxBucket [] |>.2.1 (by with_unfolding_all rfl)).2.2.2,
    ratio_empty_cell_amended.1 cxBucket [] |>.2.2.2.2 (by decide),
    (ratio_empty_cell_amended.2 cxGoogleBucket []).1 (by decide),
    (ratio_empty_cell_amended.2 cxGoogleBucket []).2.1 (by decide)⟩

/-! ### C8: output ordering -/

theorem key3Le_trans {a b c : String × String × String}
    (h1 : key3Le a b = true) (h2 : key3Le b c = true) : key3Le a c = true := by
  simp only [key3Le, Bool.or_eq_true, Bool.and_eq_true, decide_eq_true_eq] at h1 h2 ⊢
  rcases h1 with h1 | ⟨e1, h1⟩
  · rcases h2 with h2 | ⟨e2, h2⟩
    · exact Or.inl (strLt_trans h1 h2)
    · exact Or.inl (by rw [← e2]; exact h1)
  · rcases h2 with h2 | ⟨e2, h2⟩
    · exact Or.inl (by rw [e1]; exact h2)
    · refine Or.inr ⟨e1.trans e2, ?_⟩
      rcases h1 with h1 | ⟨f1, h1⟩
      · rcases h2 with h2 | ⟨f2, h2⟩
        · exact Or.inl (strLt_trans h1 h2)
        · exact Or.inl (by rw [← f2]; exact h1)
      · rcases h2 with h2 | ⟨f2, h2⟩
        · exact Or.inl (by rw [f1]; exact h2)
        · refine Or.inr ⟨f1.trans f2, ?_⟩
          rcases h1 with h1 | h1
          · rcases h2 with h2 | h2
            · exact Or.inl (strLt_trans h1 h2)
            · exact Or.inl (by rw [← h2]; exact h1)
          · rcases h2 with h2 | h2
            · exact Or.inl (by rw [h1]; exact h2)
            · exact Or.inr (h1.trans h2)

theorem key3Le_total (a b : String × String × String) :
    key3Le a b = true ∨ key3Le b a = true := by
  simp only [key3Le, Bool.or_eq_true, Bool.and_eq_true, decide_eq_true_eq]
  rcases strLt_total a.1 b.1 with h | h | h
  · exact Or.inl (Or.inl h)
  · rcases strLt_total a.2.1 b.2.1 with h2 | h2 | h2
    · exact Or.inl (Or.inr ⟨h, Or.inl h2⟩)
    · rcases strLt_total a.2.2 b.2.2 with h3 | h3 | h3
      · exact Or.inl (Or.inr ⟨h, Or.inr ⟨h2, Or.inl h3⟩⟩)
      · exact Or.inl (Or.inr ⟨h, Or.inr ⟨h2, Or.inr h3⟩⟩)
      · exact Or.inr (Or.inr ⟨h.symm, Or.inr ⟨h2.symm, Or.inl h3⟩⟩)
    · exact Or.inr (Or.inr ⟨h.symm, Or.inl h2⟩)
  · exact Or.inr (Or.inl h)

theorem key2Le_trans {a b c : String × String}
    (h1 : key2Le a b = true) (h2 : key2Le b c = true) : key2Le a c = true := by
  simp only [key2Le, Bool.or_eq_true, Bool.and_eq_true, decide_eq_true_eq] at h1 h2 ⊢
  rcases h1 with h1 | ⟨e1, h1⟩
  · rcases h2 with h2 | ⟨e2, h2⟩
    · exact Or.inl (strLt_trans h1 h2)
    · exact Or.inl (by rw [← e2]; exact h1)
  · rcases h2 with h2 | ⟨e2, h2⟩
    · exact Or.inl (by rw [e1]; exact h2)
    · refine Or.inr ⟨e1.trans e2, ?_⟩
      rcases h1 with h1 | h1
      · rcases h2 with h2 | h2
        · exact Or.inl (strLt_trans h1 h2)
        · exact Or.inl (by rw [← h2]; exact h1)
      · rcases h2 with h2 | h2
        · exact Or.inl (by rw [h1]; exact h2)
        · exact Or.inr (h1.trans h2)

theorem key2Le_total (a b : String × String) : key2Le a b = true ∨ key2Le b a = true := by
  simp only [key2Le, Bool.or_eq_true, Bool.and_eq_true, decide_eq_true_eq]
  rcases strLt_total a.1 b.1 with h | h | h
  · exact Or.inl (Or.inl h)
  · rcases strLt_total a.2 b.2 with h2 | h2 | h2
    · exact Or.inl (Or.inr ⟨h, Or.inl h2⟩)
    · exact Or.inl (Or.inr ⟨h, Or.inr h2⟩)
    · exact Or.inr (Or.inr ⟨h.symm, Or.inl h2⟩)
  · exact Or.inr (Or.inl h)

theorem metaRowLe_trans (a b c : List Cell) :
    metaRowLe a b = true → metaRowLe b c = true → metaRowLe a c = true :=
  key3Le_trans

theorem metaRowLe_total (a b : List Cell) : (metaRowLe a b || metaRowLe b a) = true := by
  rcases key3Le_total (metaSortKey a) (metaSortKey b) with h | h <;> simp [metaRowLe, h]

theorem googleRowLe_trans (a b c : List Cell) :
    googleRowLe a b = true → googleRowLe b c = true → googleRowLe a c = true :=
  key2Le_trans

theorem googleRowLe_total (a b : List Cell) : (googleRowLe a b || googleRowLe b a) = true := by
  rcases key2Le_total (googleSortKey a) (googleSortKey b) with h | h <;> simp [googleRowLe, h]

/-- Counterexample to claim C8: the Google Ads script sorts by week label
first, then campaign.  With campaign `"B"` in an earlier week than campaign
`"A"`, the emitted first row is the `"B"` row — the output is not sorted
ascending by entity label first. -/
theorem google_sort_week_first_counterexample :
    cellKey (((process_weekly_data [gbW1, gbW2] []).getD 0 []).getD 1 (Cell.str "")) = "B" ∧
    cellKey (((process_weekly_data [gbW1, gbW2] []).getD 1 []).getD 1 (Cell.str "")) = "A" ∧
    strLt "A" "B" = true := by
  refine ⟨by with_unfolding_all rfl, by with_unfolding_all rfl, by decide⟩

/-- Claim C8 as amended: the final row sequence is a deterministic,
ascending, stable multi-key sort applied as the last step to the built rows
— the Meta script by (campaign, ad name, week label), the Google Ads script
by (week label, campaign), week first rather than entity first. -/
theorem row_sort_order_amended :
    (∀ (weekly : List WeeklyBucket) (hs : List String),
      (process_weekly_ad_data weekly hs).Pairwise (fun a b => metaRowLe a b = true) ∧
      (process_weekly_ad_data weekly hs).Perm
        ((weekly.filter fun b => b.impressions ≠ 0).map fun b => metaRow b hs)) ∧
    (∀ (weekly : List GoogleBucket) (hs : List String),
      (process_weekly_data weekly hs).Pairwise (fun a b => googleRowLe a b = true) ∧
      (process_weekly_data weekly hs).Perm
        ((weekly.filter fun b => b.impressions ≠ 0).map fun b => googleRow b hs)) :=
  ⟨fun _ _ =>
    ⟨List.sorted_mergeSort metaRowLe_trans metaRowLe_total _, List.mergeSort_perm _ _⟩,
  fun _ _ =>
    ⟨List.sorted_mergeSort googleRowLe_trans googleRowLe_total _, List.mergeSort_perm _ _⟩⟩

/-! ### C10: descriptive fields are last-write-wins -/

/-- Claim C10: each bucket's non-summed descriptive fields are overwritten by
every record folded in, so they equal those of the last record of that
`(entity_key, week_start)` key — in the Meta table campaign, ad id, ad name
and the week bounds, in the Google table campaign, currency code and the week
bounds.  Concretely, swapping the order of the two sample records (same
multiset) changes the bucket's `ad_name` from `"Ad One Renamed"` to
`"Ad One"`. -/
theorem descriptive_fields_last_write :
    (∀ (recs : List MetricRecord) (m : AdTable) (k : String × ℤ) (b : WeeklyBucket),
      aggAds recs [] = .ok m → lookupA m k = some b →
      (recs.filter fun r => recordKey r = some k) ≠ [] ∧
      ∀ rl, (recs.filter fun r => recordKey r = some k).getLast? = some rl →
        b.campaign_name = rl.campaign_name ∧ b.ad_id = rl.ad_id ∧ b.ad_name = rl.ad_name ∧
        b.week_start = k.2 ∧ b.week_end = k.2 + 6) ∧
    (∀ (recs : List GoogleRecord) (m : GTable) (k : String × ℤ) (b : GoogleBucket),
      aggGoogle recs [] = .ok m → lookupA m k = some b →
      ∀ rl, (recs.filter fun r => googleKey r = some k).getLast? = some rl →
        b.campaign_name = rl.campaign_name ∧ b.currency_code = rl.currency_code ∧
        b.week_start = k.2 ∧ b.week_end = k.2 + 6) ∧
    sampleBucket.ad_name = "Ad One Renamed" ∧
    sampleBucketSwapped.ad_name = "Ad One" := by
  refine ⟨?_, ?_, by with_unfolding_all rfl, by with_unfolding_all rfl⟩
  · intro recs m k b h hb
    have hbf := aggAds_bucketFor recs m h k b hb
    rcases bucketFor_spec k recs none b hbf with
      ⟨_, _, _, _, _, _, _, _, _, _, h11, h12⟩
    refine ⟨?_, h12⟩
    intro hemp
    exact absurd (h11 hemp) (by simp)
  · intro recs m k b h hb
    have hbf := aggGoogle_bucketFor recs m h k b hb
    rcases gBucketFor_spec k recs none b hbf with ⟨_, _, _, _, _, h6⟩
    exact h6

/-- Witness for `descriptive_fields_last_write`: the sample aggregation's
bucket carries the descriptive fields of the later record `recTueA`. -/
theorem descriptive_fields_last_write_witness :
    ([recMonA, recTueA].filter fun r => recordKey r = some sampleKey) ≠ [] ∧
    sampleBucket.campaign_name = recTueA.campaign_name ∧
    sampleBucket.ad_name = recTueA.ad_name := by
  have h := descriptive_fields_last_write.1 [recMonA, recTueA] sampleTable sampleKey
    sampleBucket rfl rfl
  have h2 := h.2 recTueA rfl
  exact ⟨h.1, h2.1, h2.2.2.1⟩

end B2B
